import Mathlib

/-!
Shallow embedding of the credit-accounting core of the `credit_management`
repository.

The data model follows `src/credit_management/models/*` and the persistence
semantics follow `src/credit_management/db/mongo.py` (`MongoDBManager`):

* the balance of a user is derived from the most recent transaction for that
  user (`get_user_credits`), defaulting to `0` when no transaction exists;
* the reserved total of a user is the sum of `credits` over that user's
  reservation records with `committed = false` and `released = false`
  (`get_reserved_credits_for_user`);
* `add_reserved_credits` upserts by reservation id (`replace_one` with
  `upsert=True`).

Timestamps are modelled by list order (records are appended in call order,
and every operation timestamps with the current time).  Inert metadata
fields (descriptions, reasons, created-at timestamps, correlation ids) that
no operation ever branches on are omitted.  Fresh reservation ids (uuid4 in
`_prepare_insert`) are modelled by a monotone counter in the state.

The service layer follows `src/credit_management/services/credit_service.py`.
The audit sink (`LedgerLogger`) is fire-and-forget and never read back, so
its calls are not part of the state.  The cache port holds, per key, either
nothing, a well-formed serialized `UserCreditInfo`, or a corrupted payload;
this is the tagged view {Hit, Miss, Corrupted} of the read-through cache.
-/

namespace CreditManagement

/-- Aggregate returned by `get_user_credits_info`: `models/user.py`'s
`UserCreditInfo` with fields `balance`, `reserved`, `available`. -/
structure UserCreditInfo where
  balance : Int
  reserved : Int
  available : Int
deriving Repr, DecidableEq

/-- Transaction type enum from `models/transaction.py`. -/
inductive TransactionType where
  | add
  | deduct
  | expire
  | reserve
  | commit_reserved
  | release_reserved
deriving Repr, DecidableEq

/-- Immutable audit transaction, `models/transaction.py`.  The `timestamp`
field is modelled by position in the append-only transaction list. -/
structure Transaction where
  user_id : String
  credits_added : Int
  credits_deducted : Int
  current_credits : Int
  transaction_type : TransactionType
deriving Repr, DecidableEq

/-- Reservation record, `models/credits.py` (`ReservedCredits`).  Ids are
natural numbers standing for the uuid strings assigned by the DB layer. -/
structure ReservedCredits where
  id : Nat
  user_id : String
  credits : Int
  committed : Bool
  released : Bool
deriving Repr, DecidableEq

/-- Time-boxed credit grant, `models/credits.py` (`CreditExpiryRecord`).
`expires_at` is an abstract integer timestamp. -/
structure CreditExpiryRecord where
  user_id : String
  credits : Int
  remaining_credits : Int
  expires_at : Int
  expired : Bool
deriving Repr, DecidableEq

/-- Persistent store contents, per `MongoDBManager`: the transaction
collection (append order = timestamp order), the reservation collection and
the expiry-record collection, plus the fresh-id source. -/
structure DBState where
  transactions : List Transaction
  reserved : List ReservedCredits
  expiry : List CreditExpiryRecord
  nextReservationId : Nat
deriving Repr

/-- `MongoDBManager.get_user_credits`: current credits derived from the
latest transaction of the user, `0` when there is none. -/
def DBState.get_user_credits (db : DBState) (uid : String) : Int :=
  match db.transactions.reverse.find? (fun t => t.user_id == uid) with
  | some t => t.current_credits
  | none => 0

/-- `MongoDBManager.get_reserved_credits_for_user`: sum of `credits` over the
user's reservations with `committed = false` and `released = false`. -/
def DBState.get_reserved_credits_for_user (db : DBState) (uid : String) : Int :=
  ((db.reserved.filter
      (fun r => r.user_id == uid && !r.committed && !r.released)).map
    (fun r => r.credits)).sum

/-- `MongoDBManager.get_user_credits_info`: balance and reserved total read
from the store, with `available = balance - reserved`. -/
def DBState.get_user_credits_info (db : DBState) (uid : String) : UserCreditInfo :=
  { balance := db.get_user_credits uid
    reserved := db.get_reserved_credits_for_user uid
    available := db.get_user_credits uid - db.get_reserved_credits_for_user uid }

/-- `MongoDBManager.add_transaction`: append-only insert. -/
def DBState.add_transaction (db : DBState) (tx : Transaction) : DBState :=
  { db with transactions := db.transactions ++ [tx] }

/-- `MongoDBManager.add_reserved_credits`: `replace_one` keyed on `_id` with
`upsert=True` — replace the record with this id when present, insert
otherwise. -/
def DBState.add_reserved_credits (db : DBState) (r : ReservedCredits) : DBState :=
  if db.reserved.any (fun x => x.id == r.id) then
    { db with reserved := db.reserved.map (fun x => if x.id == r.id then r else x) }
  else
    { db with reserved := db.reserved ++ [r] }

/-- Persisting an expiry record.  A fresh record is appended; re-persisting
an updated record replaces the stored copy (the in-memory backend shares the
mutated object with its store, so the stored record carries the update). -/
def DBState.add_credit_expiry_record (db : DBState) (rec : CreditExpiryRecord) : DBState :=
  { db with expiry := db.expiry ++ [rec] }

/-- One cache slot for the serialized `UserCreditInfo` aggregate: absent,
present but failing deserialization, or present and well-formed (with the
TTL it was stored under). -/
inductive CacheEntry where
  | missing
  | corrupted
  | valid (info : UserCreditInfo) (ttl : Option Nat)
deriving Repr, DecidableEq

/-- Full state seen by `CreditService`: the store plus the two cache key
families `credit:user:{id}:info` and `credit:user:{id}:balance`. -/
structure ServiceState where
  db : DBState
  infoCache : String → CacheEntry
  balanceCache : String → Option Int

/-- Errors raised by the service: `ValueError("amount must be positive")`
and the `ValueError("insufficient credits ...")` family.  No engine
operation raises a not-found error for a user. -/
inductive CreditError where
  | invalidAmount
  | insufficientCredits
deriving Repr, DecidableEq

/-- `CreditService._update_credit_info_cache`: apply balance/reserved deltas
to a well-formed cached aggregate (recomputing `available` and storing with
a 300 s TTL), delete a corrupted entry, do nothing on a miss. -/
def updateCreditInfoCache (cache : String → CacheEntry) (uid : String)
    (balanceDelta reservedDelta : Int) : String → CacheEntry :=
  match cache uid with
  | .valid info _ =>
      fun k =>
        if k == uid then
          .valid
            { balance := info.balance + balanceDelta
              reserved := info.reserved + reservedDelta
              available := (info.balance + balanceDelta) - (info.reserved + reservedDelta) }
            (some 300)
        else cache k
  | .corrupted => fun k => if k == uid then .missing else cache k
  | .missing => cache

/-- Write to the `credit:user:{id}:balance` key. -/
def setBalanceCache (cache : String → Option Int) (uid : String) (v : Int) :
    String → Option Int :=
  fun k => if k == uid then some v else cache k

/-- Empty system: no stored records, empty cache. -/
def initState : ServiceState :=
  { db := { transactions := [], reserved := [], expiry := [], nextReservationId := 0 }
    infoCache := fun _ => .missing
    balanceCache := fun _ => none }

/-- `CreditService.add_credits`.  `expiresAt` stands for the `utcnow + 30
days` horizon used when a subscription plan id is supplied. -/
def addCredits (uid : String) (amount : Int) (plan : Option String) (expiresAt : Int)
    (s : ServiceState) : Except CreditError Transaction × ServiceState :=
  if amount ≤ 0 then (.error .invalidAmount, s)
  else
    let current := s.db.get_user_credits uid
    let newBalance := current + amount
    let tx : Transaction :=
      { user_id := uid, credits_added := amount, credits_deducted := 0
        current_credits := newBalance, transaction_type := .add }
    let db1 := s.db.add_transaction tx
    let db2 :=
      match plan with
      | some _ =>
          db1.add_credit_expiry_record
            { user_id := uid, credits := amount, remaining_credits := amount
              expires_at := expiresAt, expired := false }
      | none => db1
    (.ok tx,
      { db := db2
        balanceCache := setBalanceCache s.balanceCache uid newBalance
        infoCache := updateCreditInfoCache s.infoCache uid amount 0 })

/-- `CreditService._deduct_credits_internal`: unconditional deduction shared
by the checked and the after-service paths. -/
def deductCreditsInternal (uid : String) (amount : Int) (currentBalance : Int)
    (s : ServiceState) : Transaction × ServiceState :=
  let newBalance := currentBalance - amount
  let tx : Transaction :=
    { user_id := uid, credits_added := 0, credits_deducted := amount
      current_credits := newBalance, transaction_type := .deduct }
  (tx,
    { db := s.db.add_transaction tx
      balanceCache := setBalanceCache s.balanceCache uid newBalance
      infoCache := updateCreditInfoCache s.infoCache uid (-amount) 0 })

/-- `CreditService.deduct_credits`: admission-checked against `available`. -/
def deductCredits (uid : String) (amount : Int) (s : ServiceState) :
    Except CreditError Transaction × ServiceState :=
  if amount ≤ 0 then (.error .invalidAmount, s)
  else
    let info := s.db.get_user_credits_info uid
    if info.available < amount then (.error .insufficientCredits, s)
    else
      let (tx, s1) := deductCreditsInternal uid amount info.balance s
      (.ok tx, s1)

/-- `CreditService.deduct_credits_after_service`: skips the admission check;
the balance is allowed to go negative. -/
def deductCreditsAfterService (uid : String) (amount : Int) (s : ServiceState) :
    Except CreditError Transaction × ServiceState :=
  if amount ≤ 0 then (.error .invalidAmount, s)
  else
    let info := s.db.get_user_credits_info uid
    let (tx, s1) := deductCreditsInternal uid amount info.balance s
    (.ok tx, s1)

/-- `CreditService.reserve_credits`: admission-checked against `available`;
creates an active reservation, does not touch the balance.  The fresh uuid
assigned by `_prepare_insert` is modelled by the id counter. -/
def reserveCredits (uid : String) (amount : Int) (s : ServiceState) :
    Except CreditError ReservedCredits × ServiceState :=
  if amount ≤ 0 then (.error .invalidAmount, s)
  else
    let info := s.db.get_user_credits_info uid
    if info.available < amount then (.error .insufficientCredits, s)
    else
      let r : ReservedCredits :=
        { id := s.db.nextReservationId, user_id := uid, credits := amount
          committed := false, released := false }
      let db1 := s.db.add_reserved_credits r
      (.ok r,
        { db := { db1 with nextReservationId := db1.nextReservationId + 1 }
          balanceCache := s.balanceCache
          infoCache := updateCreditInfoCache s.infoCache uid 0 amount })

/-- `CreditService.unreserve_credits`: sets `released = true` on the given
reservation object, persists it, and applies a `-credits` reserved delta to
the cached aggregate.  No check of the current flags is performed. -/
def unreserveCredits (r : ReservedCredits) (s : ServiceState) :
    ReservedCredits × ServiceState :=
  let r1 := { r with released := true }
  (r1,
    { db := s.db.add_reserved_credits r1
      balanceCache := s.balanceCache
      infoCache := updateCreditInfoCache s.infoCache r.user_id 0 (-r.credits) })

/-- `CreditService.commit_reserved_credits`: admission-checked against the
raw balance; on success sets `committed = true`, deducts the balance, and
applies `-credits` to both cached balance and cached reserved. -/
def commitReservedCredits (r : ReservedCredits) (s : ServiceState) :
    Except CreditError Transaction × ServiceState :=
  let current := s.db.get_user_credits r.user_id
  if current < r.credits then (.error .insufficientCredits, s)
  else
    let newBalance := current - r.credits
    let r1 := { r with committed := true }
    let db1 := s.db.add_reserved_credits r1
    let tx : Transaction :=
      { user_id := r.user_id, credits_added := 0, credits_deducted := r.credits
        current_credits := newBalance, transaction_type := .commit_reserved }
    (.ok tx,
      { db := db1.add_transaction tx
        balanceCache := setBalanceCache s.balanceCache r.user_id newBalance
        infoCache := updateCreditInfoCache s.infoCache r.user_id (-r.credits) (-r.credits) })

/-- Loop guard of `CreditService.expire_credits`: the record is processed
when it belongs to the user, is not yet expired, and `expires_at ≤ as_of`. -/
def expiresNow (rec : CreditExpiryRecord) (uid : String) (asOf : Int) : Bool :=
  rec.user_id == uid && !rec.expired && decide (rec.expires_at ≤ asOf)

/-- `CreditService.expire_credits`: zero and mark every matching record, and
when the expired total is positive clamp the balance at zero, append an
`EXPIRE` transaction and apply a `-expired_total` balance delta to the
cache.  Returns the expired total. -/
def expireCredits (uid : String) (asOf : Int) (s : ServiceState) :
    Int × ServiceState :=
  let total :=
    ((s.db.expiry.filter (fun rec => expiresNow rec uid asOf)).map
      (fun rec => rec.remaining_credits)).sum
  let expiry1 := s.db.expiry.map
    (fun rec =>
      if expiresNow rec uid asOf then { rec with remaining_credits := 0, expired := true }
      else rec)
  let db1 : DBState := { s.db with expiry := expiry1 }
  if 0 < total then
    let current := db1.get_user_credits uid
    let newBalance := max (current - total) 0
    let tx : Transaction :=
      { user_id := uid, credits_added := 0, credits_deducted := total
        current_credits := newBalance, transaction_type := .expire }
    (total,
      { db := db1.add_transaction tx
        balanceCache := setBalanceCache s.balanceCache uid newBalance
        infoCache := updateCreditInfoCache s.infoCache uid (-total) 0 })
  else (total, { s with db := db1 })

/-- `CreditService.get_user_credits_info`: read-through.  A well-formed
cached aggregate is returned as is; a miss or a corrupted payload is
resolved from the store (deleting the corrupted entry first) and the cache
is repopulated with a 300 s TTL.  No error is ever surfaced. -/
def getUserCreditsInfo (uid : String) (s : ServiceState) :
    UserCreditInfo × ServiceState :=
  match s.infoCache uid with
  | .valid info _ => (info, s)
  | .missing =>
      let info := s.db.get_user_credits_info uid
      (info,
        { s with infoCache := fun k => if k == uid then .valid info (some 300) else s.infoCache k })
  | .corrupted =>
      let deleted : String → CacheEntry :=
        fun k => if k == uid then .missing else s.infoCache k
      let info := s.db.get_user_credits_info uid
      (info,
        { s with infoCache := fun k => if k == uid then .valid info (some 300) else deleted k })

/-- Look up a reservation record by id, as the store currently holds it. -/
def findReservation (db : DBState) (rid : Nat) : Option ReservedCredits :=
  db.reserved.find? (fun r => r.id == rid)

/-- Engine calls appearing in the sequences of §8 of the spec: the five
mutators plus the `getCreditInfo` read (which repopulates the cache and is
therefore part of the state evolution). -/
inductive Op where
  | add (uid : String) (amount : Int)
  | deduct (uid : String) (amount : Int)
  | reserve (uid : String) (amount : Int)
  | commit (rid : Nat)
  | unreserve (rid : Nat)
  | getInfo (uid : String)
deriving Repr, DecidableEq

/-- Execute one call, requiring it to succeed (`none` = the call raised, or
named a reservation id the store has never seen).  `commit` and `unreserve`
receive the record currently stored under the id, matching a caller that
passes back the object the service returned to it. -/
def runOp (s : ServiceState) : Op → Option ServiceState
  | .add uid a =>
      match addCredits uid a none 0 s with
      | (.ok _, s1) => some s1
      | (.error _, _) => none
  | .deduct uid a =>
      match deductCredits uid a s with
      | (.ok _, s1) => some s1
      | (.error _, _) => none
  | .reserve uid a =>
      match reserveCredits uid a s with
      | (.ok _, s1) => some s1
      | (.error _, _) => none
  | .commit rid =>
      match findReservation s.db rid with
      | some r =>
          match commitReservedCredits r s with
          | (.ok _, s1) => some s1
          | (.error _, _) => none
      | none => none
  | .unreserve rid =>
      match findReservation s.db rid with
      | some r => some (unreserveCredits r s).2
      | none => none
  | .getInfo uid => some (getUserCreditsInfo uid s).2

/-- Run a sequence of calls, all of which must individually succeed. -/
def runOps (s : ServiceState) : List Op → Option ServiceState
  | [] => some s
  | op :: rest => (runOp s op).bind (fun s1 => runOps s1 rest)

/-- Like `runOp`, but additionally requiring `commit` and `unreserve` to
target a reservation that is still active (`committed = false`,
`released = false`) at the time of the call. -/
def runOpChecked (s : ServiceState) : Op → Option ServiceState
  | .add uid a => runOp s (.add uid a)
  | .deduct uid a => runOp s (.deduct uid a)
  | .reserve uid a => runOp s (.reserve uid a)
  | .commit rid =>
      match findReservation s.db rid with
      | some r =>
          if r.committed = false ∧ r.released = false then
            match commitReservedCredits r s with
            | (.ok _, s1) => some s1
            | (.error _, _) => none
          else none
      | none => none
  | .unreserve rid =>
      match findReservation s.db rid with
      | some r =>
          if r.committed = false ∧ r.released = false then
            some (unreserveCredits r s).2
          else none
      | none => none
  | .getInfo uid => runOp s (.getInfo uid)

/-- Run a sequence of calls under the active-target discipline. -/
def runOpsChecked (s : ServiceState) : List Op → Option ServiceState
  | [] => some s
  | op :: rest => (runOpChecked s op).bind (fun s1 => runOpsChecked s1 rest)

/-! The request boundary adapter (`src/api/middleware.py`) is wired to the
legacy service variant `src/services/credit_service.py`, whose
`deduct_credits` admission-checks against the raw balance and which exposes
no after-service deduction.  The parts of that variant the middleware calls
are embedded below. -/

/-- Legacy `CreditService.deduct_credits` (`src/services/credit_service.py`):
admission-checked against the raw balance; no credit-info cache. -/
def legacyDeductCredits (uid : String) (amount : Int) (s : ServiceState) :
    Except CreditError Transaction × ServiceState :=
  if amount ≤ 0 then (.error .invalidAmount, s)
  else
    let current := s.db.get_user_credits uid
    if current < amount then (.error .insufficientCredits, s)
    else
      let newBalance := current - amount
      let tx : Transaction :=
        { user_id := uid, credits_added := 0, credits_deducted := amount
          current_credits := newBalance, transaction_type := .deduct }
      (.ok tx,
        { s with db := s.db.add_transaction tx,
                 balanceCache := setBalanceCache s.balanceCache uid newBalance })

/-- Legacy `CreditService.unreserve_credits`: sets `released = true` and
persists; no cache interaction. -/
def legacyUnreserveCredits (r : ReservedCredits) (s : ServiceState) :
    ReservedCredits × ServiceState :=
  let r1 := { r with released := true }
  (r1, { s with db := s.db.add_reserved_credits r1 })

/-- Post-response reconciliation of `CreditDeductionMiddleware.dispatch`
(`src/api/middleware.py`, lines 137-161), for a wrapped operation that
succeeded: `usage` is the parsed actual-usage figure from the response body
(`None` when the key is absent or unparsable).  When positive, the hold is
released and the actual amount is charged through the legacy
admission-checked `deduct_credits`; a `ValueError` from it is caught and
logged, leaving `deducted = 0`, and the `finally` block then releases
again.  Otherwise only the reservation is released.  Returns the amount
actually deducted and the resulting state. -/
def middlewareReconcile (uid : String) (r : ReservedCredits) (usage : Option Int)
    (s : ServiceState) : Int × ServiceState :=
  match usage with
  | some actual =>
      if 0 < actual then
        let p1 := legacyUnreserveCredits r s
        match legacyDeductCredits uid actual p1.2 with
        | (.ok _, s2) => (actual, s2)
        | (.error _, s2) => (0, (legacyUnreserveCredits p1.1 s2).2)
      else (0, (legacyUnreserveCredits r s).2)
  | none => (0, (legacyUnreserveCredits r s).2)

/-! Invariants used in the proofs.  `FreshIds` models that the DB layer
hands out previously unused ids (uuid4); `NodupIds` follows from it;
`CacheOk` is the consistency of the read-through cache with the store. -/

/-- Every stored reservation id was drawn from the fresh-id source. -/
def FreshIds (db : DBState) : Prop :=
  ∀ r ∈ db.reserved, r.id < db.nextReservationId

/-- Stored reservation ids are pairwise distinct. -/
def NodupIds (db : DBState) : Prop :=
  (db.reserved.map (fun r => r.id)).Nodup

/-- Every cached aggregate, when present, is well-formed and equal to the
aggregate the store would produce. -/
def CacheOk (db : DBState) (cache : String → CacheEntry) : Prop :=
  ∀ uid, cache uid = .missing ∨ cache uid = .valid (db.get_user_credits_info uid) (some 300)

/-- Combined state invariant. -/
def Inv (s : ServiceState) : Prop :=
  FreshIds s.db ∧ NodupIds s.db ∧ CacheOk s.db s.infoCache

/-- Contribution of one reservation record to a user's reserved total. -/
def activeCredit (uid : String) (r : ReservedCredits) : Int :=
  if r.user_id == uid && !r.committed && !r.released then r.credits else 0

/-- Every stored reservation carries a nonnegative amount (the service only
creates reservations with a positive amount). -/
def NonnegReservations (db : DBState) : Prop :=
  ∀ r ∈ db.reserved, 0 ≤ r.credits

deriving instance DecidableEq for Except

/-- The DEDUCT transaction written by `_deduct_credits_internal` for user
`u`, amount `a` and prior balance `bal`. -/
def deductTx (u : String) (a bal : Int) : Transaction :=
  { user_id := u, credits_added := 0, credits_deducted := a,
    current_credits := bal - a, transaction_type := .deduct }

/-! Concrete scenario states used to evaluate the operations on explicit
inputs.  Each is a plain run of the embedded operations from the empty
system (or an explicitly spelled-out store). -/

/-- A sequence of individually succeeding calls in which `unreserve` is
applied to an already committed reservation, with the aggregate queried
along the way. -/
def c1CexOps : List Op :=
  [.add "u" 100, .getInfo "u", .reserve "u" 10, .getInfo "u", .commit 0,
   .getInfo "u", .unreserve 0]

/-- A checked run: every `commit`/`unreserve` targets an active
reservation. -/
def c1WitnessOps : List Op :=
  [.add "u" 100, .getInfo "u", .reserve "u" 30, .getInfo "u", .commit 0, .getInfo "u"]

/-- Final state of the checked witness run. -/
def c1WitnessState : ServiceState := (runOpsChecked initState c1WitnessOps).getD initState

/-- Individually succeeding calls ending in `unreserve` of a committed
reservation. -/
def c3CexOps : List Op :=
  [.add "u" 100, .getInfo "u", .reserve "u" 10, .commit 0, .unreserve 0]

/-- A committed, not yet released reservation of 10 credits. -/
def c3WitnessRes : ReservedCredits :=
  { id := 0, user_id := "u", credits := 10, committed := true, released := false }

/-- The commit transaction recorded before the witness scenario starts. -/
def c3WitnessTx : Transaction :=
  { user_id := "u", credits_added := 0, credits_deducted := 10,
    current_credits := 90, transaction_type := .commit_reserved }

/-- A store holding the committed reservation, balance 90 and a warm
cache. -/
def c3WitnessState : ServiceState :=
  { db := { transactions := [c3WitnessTx], reserved := [c3WitnessRes], expiry := [],
            nextReservationId := 1 }
    infoCache := fun k =>
      if k == "u" then .valid { balance := 90, reserved := 0, available := 90 } (some 300)
      else .missing
    balanceCache := fun _ => none }

/-- State after `add(100)` from the empty system. -/
def c9s1 : ServiceState := (addCredits "u" 100 none 0 initState).2

/-- The reservation returned by the first `reserve(50)`. -/
def c9r1 : ReservedCredits :=
  { id := 0, user_id := "u", credits := 50, committed := false, released := false }

/-- State after `reserve(50)`. -/
def c9s2 : ServiceState := (reserveCredits "u" 50 c9s1).2

/-- State after `unreserve` of the 50-credit reservation. -/
def c9s3 : ServiceState := (unreserveCredits c9r1 c9s2).2

/-- State after the second `reserve(55)`. -/
def c9s4 : ServiceState := (reserveCredits "u" 55 c9s3).2

/-- State after `add(50)` from the empty system. -/
def c5s1 : ServiceState := (addCredits "u" 50 none 0 initState).2

/-- State after `deductAfterService(60)` on balance 50. -/
def c5s2 : ServiceState := (deductCreditsAfterService "u" 60 c5s1).2

/-- A store with balance 50 and one active reservation of 50 credits, as
the middleware leaves it after reserving an estimate of 50. -/
def mwRes : ReservedCredits :=
  { id := 0, user_id := "u", credits := 50, committed := false, released := false }

/-- The add transaction that funded the middleware scenario. -/
def mwTx : Transaction :=
  { user_id := "u", credits_added := 50, credits_deducted := 0,
    current_credits := 50, transaction_type := .add }

/-- Store backing the middleware scenario. -/
def mwState : ServiceState :=
  { db := { transactions := [mwTx], reserved := [mwRes], expiry := [],
            nextReservationId := 1 }
    infoCache := fun _ => .missing
    balanceCache := fun _ => none }

/-- The add transaction behind the corrupted-cache scenario. -/
def c7WitnessTx : Transaction :=
  { user_id := "u", credits_added := 7, credits_deducted := 0,
    current_credits := 7, transaction_type := .add }

/-- A cache slot holding a payload that fails to deserialize. -/
def c7WitnessState : ServiceState :=
  { db := { transactions := [c7WitnessTx], reserved := [], expiry := [],
            nextReservationId := 0 }
    infoCache := fun k => if k == "u" then .corrupted else .missing
    balanceCache := fun _ => none }

/-- The add transaction behind the expiry scenario. -/
def c6WitnessTx : Transaction :=
  { user_id := "u", credits_added := 100, credits_deducted := 0,
    current_credits := 100, transaction_type := .add }

/-- A 40-credit grant already past its expiry time. -/
def c6GrantPast : CreditExpiryRecord :=
  { user_id := "u", credits := 40, remaining_credits := 40,
    expires_at := 5, expired := false }

/-- A 20-credit grant expiring in the future. -/
def c6GrantFuture : CreditExpiryRecord :=
  { user_id := "u", credits := 20, remaining_credits := 20,
    expires_at := 50, expired := false }

/-- A store with one expired-due grant and one future grant over balance
100. -/
def c6WitnessState : ServiceState :=
  { db := { transactions := [c6WitnessTx], reserved := []
            expiry := [c6GrantPast, c6GrantFuture]
            nextReservationId := 0 }
    infoCache := fun _ => .missing
    balanceCache := fun _ => none }

/-- An active 40-credit reservation. -/
def c4WitnessRes : ReservedCredits :=
  { id := 0, user_id := "u", credits := 40, committed := false, released := false }

/-- The add transaction behind the commit scenario. -/
def c4WitnessTx : Transaction :=
  { user_id := "u", credits_added := 100, credits_deducted := 0,
    current_credits := 100, transaction_type := .add }

/-- A store with balance 100, one active 40-credit reservation and a warm
cache. -/
def c4WitnessState : ServiceState :=
  { db := { transactions := [c4WitnessTx], reserved := [c4WitnessRes], expiry := [],
            nextReservationId := 1 }
    infoCache := fun k =>
      if k == "u" then .valid { balance := 100, reserved := 40, available := 60 } (some 300)
      else .missing
    balanceCache := fun _ => none }

/-- Total the expiry sweep will collect: sum of `remaining_credits` over the
user's not-yet-expired records with `expires_at` at or before the cutoff
(the loop accumulator of `expire_credits`). -/
def expiredTotal (db : DBState) (u : String) (t : Int) : Int :=
  ((db.expiry.filter (fun rec => expiresNow rec u t)).map
    (fun rec => rec.remaining_credits)).sum

/-- Record-level effect of the expiry sweep: each matching record is zeroed
and marked expired, all others are untouched. -/
def expireMark (db : DBState) (u : String) (t : Int) : List CreditExpiryRecord :=
  db.expiry.map (fun rec =>
    if expiresNow rec u t then { rec with remaining_credits := 0, expired := true }
    else rec)

/-- A user with no stored transactions, reservations or expiry records. -/
def UnknownUser (db : DBState) (u : String) : Prop :=
  (∀ tx ∈ db.transactions, tx.user_id ≠ u)
  ∧ (∀ r ∈ db.reserved, r.user_id ≠ u)
  ∧ (∀ rec ∈ db.expiry, rec.user_id ≠ u)

/-! Helper lemmas about the persistence layer. -/

theorem get_user_credits_add_transaction (db : DBState) (tx : Transaction) (v : String) :
    (db.add_transaction tx).get_user_credits v
      = if tx.user_id == v then tx.current_credits else db.get_user_credits v := by
  unfold DBState.get_user_credits DBState.add_transaction
  simp only [List.reverse_append, List.reverse_cons, List.reverse_nil, List.nil_append,
    List.cons_append, List.find?]
  cases h : tx.user_id == v <;> simp [h]

theorem reserved_sum_add_transaction (db : DBState) (tx : Transaction) (v : String) :
    (db.add_transaction tx).get_reserved_credits_for_user v
      = db.get_reserved_credits_for_user v := rfl

theorem get_user_credits_add_reserved (db : DBState) (r : ReservedCredits) (v : String) :
    (db.add_reserved_credits r).get_user_credits v = db.get_user_credits v := by
  unfold DBState.add_reserved_credits
  split <;> rfl

theorem get_user_credits_set_nextId (db : DBState) (n : Nat) (v : String) :
    (DBState.get_user_credits { db with nextReservationId := n } v)
      = db.get_user_credits v := rfl

theorem reserved_sum_list_eq (uid : String) (rs : List ReservedCredits) :
    ((rs.filter (fun r => r.user_id == uid && !r.committed && !r.released)).map
        (fun r => r.credits)).sum
      = (rs.map (activeCredit uid)).sum := by
  induction rs with
  | nil => rfl
  | cons x xs ih =>
      by_cases h : (x.user_id == uid && !x.committed && !x.released) = true
      · simp [List.filter_cons, h, activeCredit, ih]
      · simp [List.filter_cons, h, activeCredit, ih]

theorem reserved_sum_eq (db : DBState) (uid : String) :
    db.get_reserved_credits_for_user uid = (db.reserved.map (activeCredit uid)).sum :=
  reserved_sum_list_eq uid db.reserved

theorem map_replace_id (rs : List ReservedCredits) (r1 : ReservedCredits)
    (h : ∀ y ∈ rs, (y.id == r1.id) = false) :
    rs.map (fun x => if x.id == r1.id then r1 else x) = rs := by
  induction rs with
  | nil => rfl
  | cons x xs ih =>
      have hx := h x (List.mem_cons_self x xs)
      simp only [List.map_cons, hx, if_neg, Bool.false_eq_true, not_false_iff, ite_false]
      rw [ih (fun y hy => h y (List.mem_cons_of_mem x hy))]

theorem map_replace_sum (g : ReservedCredits → Int) (rs : List ReservedCredits)
    (r r1 : ReservedCredits) (hmem : r ∈ rs) (hid : r1.id = r.id)
    (hnodup : (rs.map (fun x => x.id)).Nodup) :
    ((rs.map (fun x => if x.id == r1.id then r1 else x)).map g).sum
      = (rs.map g).sum - g r + g r1 := by
  induction rs with
  | nil => cases hmem
  | cons x xs ih =>
      rw [List.map_cons, List.Nodup] at hnodup
      have hnodup_tail : (xs.map (fun x => x.id)).Nodup :=
        (List.pairwise_cons.mp hnodup).2
      have hx_notin : x.id ∉ xs.map (fun x => x.id) := by
        intro hmemid
        exact absurd rfl ((List.pairwise_cons.mp hnodup).1 x.id hmemid)
      by_cases hx : (x.id == r1.id) = true
      · have hxid : x.id = r1.id := by simpa using hx
        have hxr : x = r := by
          rcases List.mem_cons.mp hmem with h | h
          · exact h.symm
          · exfalso
            apply hx_notin
            rw [hxid, hid]
            exact List.mem_map.mpr ⟨r, h, rfl⟩
        have htail : ∀ y ∈ xs, (y.id == r1.id) = false := by
          intro y hy
          apply Bool.eq_false_iff.mpr
          intro hcontra
          apply hx_notin
          rw [hxid]
          have : y.id = r1.id := by simpa using hcontra
          rw [← this]
          exact List.mem_map.mpr ⟨y, hy, rfl⟩
        rw [List.map_cons, if_pos hx, map_replace_id xs r1 htail]
        simp [hxr]
        ring
      · have hxr : x ≠ r := by
          intro hcontra
          apply hx
          rw [hcontra, hid]
          exact beq_self_eq_true r.id
        have hmem_tail : r ∈ xs := by
          rcases List.mem_cons.mp hmem with h | h
          · exact absurd h.symm hxr
          · exact h
        rw [List.map_cons, if_neg (by simp [hx])]
        simp only [List.map_cons, List.sum_cons, ih hmem_tail hnodup_tail]
        ring

theorem reserved_sum_replace (db : DBState) (r r1 : ReservedCredits) (uid : String)
    (hmem : r ∈ db.reserved) (hid : r1.id = r.id) (hnodup : NodupIds db) :
    (db.add_reserved_credits r1).get_reserved_credits_for_user uid
      = db.get_reserved_credits_for_user uid - activeCredit uid r + activeCredit uid r1 := by
  have hany : db.reserved.any (fun x => x.id == r1.id) = true :=
    List.any_eq_true.mpr ⟨r, hmem, by rw [hid]; exact beq_self_eq_true r.id⟩
  unfold DBState.add_reserved_credits
  rw [if_pos hany]
  show ((db.reserved.map (fun x => if x.id == r1.id then r1 else x)).filter _ |>.map _).sum = _
  rw [reserved_sum_list_eq, reserved_sum_eq]
  exact map_replace_sum (activeCredit uid) db.reserved r r1 hmem hid hnodup

theorem reserved_sum_append (db : DBState) (r : ReservedCredits) (uid : String)
    (hfresh : ∀ x ∈ db.reserved, x.id ≠ r.id) :
    (db.add_reserved_credits r).get_reserved_credits_for_user uid
      = db.get_reserved_credits_for_user uid + activeCredit uid r := by
  have hany : db.reserved.any (fun x => x.id == r.id) = false := by
    rw [List.any_eq_false]
    intro x hx
    simpa using hfresh x hx
  unfold DBState.add_reserved_credits
  rw [if_neg (by simp [hany])]
  show (((db.reserved ++ [r]).filter _).map _).sum = _
  rw [reserved_sum_list_eq, reserved_sum_eq, List.map_append, List.sum_append]
  simp

theorem find_replace (rs : List ReservedCredits) (r r1 : ReservedCredits)
    (hmem : r ∈ rs) (hid : r1.id = r.id) :
    (rs.map (fun x => if x.id == r1.id then r1 else x)).find? (fun x => x.id == r.id)
      = some r1 := by
  induction rs with
  | nil => cases hmem
  | cons x xs ih =>
      by_cases hx : (x.id == r1.id) = true
      · rw [List.map_cons, if_pos hx]
        exact List.find?_cons_of_pos _ (by simp [hid])
      · rw [List.map_cons, if_neg hx]
        rw [List.find?_cons_of_neg _ (by simpa [hid] using hx)]
        have hmem_tail : r ∈ xs := by
          rcases List.mem_cons.mp hmem with h | h
          · exfalso; apply hx; rw [← h, hid]; exact beq_self_eq_true r.id
          · exact h
        exact ih hmem_tail

theorem findReservation_replace (db : DBState) (r r1 : ReservedCredits)
    (hmem : r ∈ db.reserved) (hid : r1.id = r.id) :
    findReservation (db.add_reserved_credits r1) r.id = some r1 := by
  have hany : db.reserved.any (fun x => x.id == r1.id) = true :=
    List.any_eq_true.mpr ⟨r, hmem, by rw [hid]; exact beq_self_eq_true r.id⟩
  unfold DBState.add_reserved_credits findReservation
  rw [if_pos hany]
  exact find_replace db.reserved r r1 hmem hid

theorem ids_map_replace (rs : List ReservedCredits) (r1 : ReservedCredits)
    (rid : Nat) (hid : r1.id = rid) :
    (rs.map (fun x => if x.id == rid then r1 else x)).map (fun x => x.id)
      = rs.map (fun x => x.id) := by
  induction rs with
  | nil => rfl
  | cons x xs ih =>
      by_cases hx : (x.id == rid) = true
      · have hr1 : r1.id = x.id := by rw [hid]; symm; simpa using hx
        simp only [List.map_cons, if_pos hx, hr1, ih]
      · rw [List.map_cons, List.map_cons, if_neg hx, List.map_cons, ih]

theorem nodupIds_replace (db : DBState) (r1 : ReservedCredits) (rid : Nat)
    (hid : r1.id = rid) (hnodup : NodupIds db) :
    NodupIds { db with reserved := db.reserved.map (fun x => if x.id == rid then r1 else x) } := by
  unfold NodupIds at hnodup ⊢
  rwa [ids_map_replace db.reserved r1 rid hid]

theorem freshIds_replace (db : DBState) (r1 : ReservedCredits) (rid : Nat)
    (hid : r1.id = rid) (hfresh : FreshIds db) :
    FreshIds { db with reserved := db.reserved.map (fun x => if x.id == rid then r1 else x) } := by
  intro x hx
  rcases List.mem_map.mp hx with ⟨y, hy, hrep⟩
  by_cases hcase : (y.id == rid) = true
  · rw [if_pos hcase] at hrep
    have : x.id = y.id := by rw [← hrep, hid]; symm; simpa using hcase
    rw [this]
    exact hfresh y hy
  · rw [if_neg (by simp [hcase])] at hrep
    rw [← hrep]
    exact hfresh y hy

theorem inv_replace_reserved (db : DBState) (r r1 : ReservedCredits)
    (hmem : r ∈ db.reserved) (hid : r1.id = r.id)
    (hfresh : FreshIds db) (hnodup : NodupIds db) :
    FreshIds (db.add_reserved_credits r1) ∧ NodupIds (db.add_reserved_credits r1) := by
  have hany : db.reserved.any (fun x => x.id == r1.id) = true :=
    List.any_eq_true.mpr ⟨r, hmem, by rw [hid]; exact beq_self_eq_true r.id⟩
  unfold DBState.add_reserved_credits
  rw [if_pos hany]
  exact ⟨freshIds_replace db r1 r1.id rfl hfresh, nodupIds_replace db r1 r1.id rfl hnodup⟩

theorem get_user_credits_add_expiry (db : DBState) (rec : CreditExpiryRecord) (v : String) :
    (db.add_credit_expiry_record rec).get_user_credits v = db.get_user_credits v := rfl

theorem reserved_sum_add_expiry (db : DBState) (rec : CreditExpiryRecord) (v : String) :
    (db.add_credit_expiry_record rec).get_reserved_credits_for_user v
      = db.get_reserved_credits_for_user v := rfl

theorem reserved_sum_add_reserved_set_nextId (db : DBState) (n : Nat) (v : String) :
    (DBState.get_reserved_credits_for_user { db with nextReservationId := n } v)
      = db.get_reserved_credits_for_user v := rfl

theorem add_reserved_fresh_eq (db : DBState) (r : ReservedCredits)
    (hfresh : ∀ x ∈ db.reserved, x.id ≠ r.id) :
    db.add_reserved_credits r = { db with reserved := db.reserved ++ [r] } := by
  have hany : db.reserved.any (fun x => x.id == r.id) = false := by
    rw [List.any_eq_false]
    intro x hx
    simpa using hfresh x hx
  unfold DBState.add_reserved_credits
  rw [if_neg (by simp [hany])]

/-- Core cache-consistency preservation: when the store moves by a per-user
delta and the cached aggregate for that user receives the same delta, every
cached aggregate stays equal to what the store would produce. -/
theorem cacheOk_update (db db1 : DBState) (cache : String → CacheEntry) (uid : String)
    (bd rd : Int) (hC : CacheOk db cache)
    (hbal : ∀ v, db1.get_user_credits v
      = db.get_user_credits v + (if v = uid then bd else 0))
    (hres : ∀ v, db1.get_reserved_credits_for_user v
      = db.get_reserved_credits_for_user v + (if v = uid then rd else 0)) :
    CacheOk db1 (updateCreditInfoCache cache uid bd rd) := by
  have hinfo_ne : ∀ v, v ≠ uid →
      db1.get_user_credits_info v = db.get_user_credits_info v := by
    intro v hv
    unfold DBState.get_user_credits_info
    rw [hbal v, hres v, if_neg hv, if_neg hv]
    simp
  intro v
  unfold updateCreditInfoCache
  rcases hC uid with hmiss | hvalid
  · rw [hmiss]
    dsimp only
    by_cases hv : v = uid
    · subst hv
      left
      exact hmiss
    · rcases hC v with h | h
      · left; exact h
      · right; rw [h, hinfo_ne v hv]
  · rw [hvalid]
    dsimp only
    by_cases hv : v = uid
    · subst hv
      right
      rw [if_pos (by simp)]
      unfold DBState.get_user_credits_info
      rw [hbal v, hres v, if_pos rfl, if_pos rfl]
    · rw [if_neg (by simp [hv])]
      rcases hC v with h | h
      · left; exact h
      · right; rw [h, hinfo_ne v hv]

/-- Repopulating one user's slot with the store's current aggregate keeps
the cache consistent. -/
theorem cacheOk_populate (db : DBState) (cache : String → CacheEntry) (uid : String)
    (hC : CacheOk db cache) :
    CacheOk db (fun k => if k == uid then .valid (db.get_user_credits_info uid) (some 300)
      else cache k) := by
  intro v
  dsimp only
  by_cases hv : v = uid
  · subst hv
    right
    rw [if_pos (by simp)]
  · rw [if_neg (by simp [hv])]
    exact hC v

theorem transactions_add_reserved (db : DBState) (r : ReservedCredits) :
    (db.add_reserved_credits r).transactions = db.transactions := by
  unfold DBState.add_reserved_credits
  split <;> rfl

theorem get_user_credits_congr {db1 db2 : DBState} (h : db1.transactions = db2.transactions)
    (u : String) : db1.get_user_credits u = db2.get_user_credits u := by
  unfold DBState.get_user_credits
  rw [h]

theorem find_append_fresh (l : List ReservedCredits) (r : ReservedCredits)
    (h : ∀ x ∈ l, x.id ≠ r.id) :
    (l ++ [r]).find? (fun x => x.id == r.id) = some r := by
  induction l with
  | nil => simp [List.find?]
  | cons x xs ih =>
      rw [List.cons_append,
        List.find?_cons_of_neg _ (by simpa using h x (List.mem_cons_self x xs))]
      exact ih (fun y hy => h y (List.mem_cons_of_mem x hy))

theorem findReservation_append (db : DBState) (r : ReservedCredits)
    (hfr : ∀ x ∈ db.reserved, x.id ≠ r.id) :
    findReservation { db with reserved := db.reserved ++ [r] } r.id = some r :=
  find_append_fresh db.reserved r hfr

theorem reserved_sum_nonneg (db : DBState) (u : String) (h : NonnegReservations db) :
    0 ≤ db.get_reserved_credits_for_user u := by
  unfold DBState.get_reserved_credits_for_user
  apply List.sum_nonneg
  intro x hx
  rcases List.mem_map.mp hx with ⟨rec, hrec, hval⟩
  rw [← hval]
  exact h rec (List.mem_of_mem_filter hrec)

theorem deductCreditsAfterService_spec (u : String) (a : Int) (s : ServiceState)
    (h : ¬ a ≤ 0) :
    deductCreditsAfterService u a s =
      (.ok { user_id := u, credits_added := 0, credits_deducted := a,
             current_credits := s.db.get_user_credits u - a, transaction_type := .deduct },
       { db := s.db.add_transaction
           { user_id := u, credits_added := 0, credits_deducted := a,
             current_credits := s.db.get_user_credits u - a, transaction_type := .deduct }
         balanceCache := setBalanceCache s.balanceCache u (s.db.get_user_credits u - a)
         infoCache := updateCreditInfoCache s.infoCache u (-a) 0 }) := by
  simp only [deductCreditsAfterService, deductCreditsInternal, DBState.get_user_credits_info]
  rw [if_neg h]

theorem deductCredits_spec (u : String) (a : Int) (s : ServiceState)
    (h1 : ¬ a ≤ 0) (h2 : ¬ (s.db.get_user_credits_info u).available < a) :
    deductCredits u a s =
      (.ok { user_id := u, credits_added := 0, credits_deducted := a,
             current_credits := s.db.get_user_credits u - a, transaction_type := .deduct },
       { db := s.db.add_transaction
           { user_id := u, credits_added := 0, credits_deducted := a,
             current_credits := s.db.get_user_credits u - a, transaction_type := .deduct }
         balanceCache := setBalanceCache s.balanceCache u (s.db.get_user_credits u - a)
         infoCache := updateCreditInfoCache s.infoCache u (-a) 0 }) := by
  simp only [deductCredits, deductCreditsInternal]
  rw [if_neg h1, if_neg h2]
  simp only [DBState.get_user_credits_info]

theorem legacyDeductCredits_spec_ok (u : String) (a : Int) (s : ServiceState)
    (h1 : ¬ a ≤ 0) (h2 : ¬ s.db.get_user_credits u < a) :
    legacyDeductCredits u a s =
      (.ok (deductTx u a (s.db.get_user_credits u)),
       { s with db := s.db.add_transaction (deductTx u a (s.db.get_user_credits u)),
                balanceCache := setBalanceCache s.balanceCache u
                  (s.db.get_user_credits u - a) }) := by
  simp only [legacyDeductCredits, deductTx]
  rw [if_neg h1, if_neg h2]

theorem legacyDeductCredits_spec_err (u : String) (a : Int) (s : ServiceState)
    (h1 : ¬ a ≤ 0) (h2 : s.db.get_user_credits u < a) :
    legacyDeductCredits u a s = (.error .insufficientCredits, s) := by
  simp only [legacyDeductCredits]
  rw [if_neg h1, if_pos h2]

theorem reserved_sum_bumpId (db : DBState) (r : ReservedCredits) (v : String) :
    (DBState.get_reserved_credits_for_user
        { db.add_reserved_credits r with
          nextReservationId := (db.add_reserved_credits r).nextReservationId + 1 } v)
      = (db.add_reserved_credits r).get_reserved_credits_for_user v := rfl

theorem get_user_credits_bumpId (db : DBState) (r : ReservedCredits) (v : String) :
    (DBState.get_user_credits
        { db.add_reserved_credits r with
          nextReservationId := (db.add_reserved_credits r).nextReservationId + 1 } v)
      = (db.add_reserved_credits r).get_user_credits v := rfl

theorem findReservation_bumpId (db : DBState) (r : ReservedCredits) (rid : Nat) :
    findReservation
        { db.add_reserved_credits r with
          nextReservationId := (db.add_reserved_credits r).nextReservationId + 1 } rid
      = findReservation (db.add_reserved_credits r) rid := rfl

theorem reserveCredits_fail (uid : String) (a : Int) (s : ServiceState)
    (h1 : ¬ a ≤ 0) (h2 : (s.db.get_user_credits_info uid).available < a) :
    reserveCredits uid a s = (.error .insufficientCredits, s) := by
  simp only [reserveCredits]
  rw [if_neg h1, if_pos h2]

theorem deductCredits_fail (u : String) (a : Int) (s : ServiceState)
    (h1 : ¬ a ≤ 0) (h2 : (s.db.get_user_credits_info u).available < a) :
    deductCredits u a s = (.error .insufficientCredits, s) := by
  simp only [deductCredits]
  rw [if_neg h1, if_pos h2]

theorem commitReservedCredits_fail (r : ReservedCredits) (s : ServiceState)
    (h : s.db.get_user_credits r.user_id < r.credits) :
    commitReservedCredits r s = (.error .insufficientCredits, s) := by
  simp only [commitReservedCredits]
  rw [if_pos h]

theorem expireCredits_spec_pos (u : String) (t : Int) (s : ServiceState)
    (h : 0 < expiredTotal s.db u t) :
    expireCredits u t s =
      (expiredTotal s.db u t,
       { db := (DBState.add_transaction { s.db with expiry := expireMark s.db u t }
           { user_id := u, credits_added := 0, credits_deducted := expiredTotal s.db u t,
             current_credits := max (s.db.get_user_credits u - expiredTotal s.db u t) 0,
             transaction_type := .expire })
         balanceCache := setBalanceCache s.balanceCache u
           (max (s.db.get_user_credits u - expiredTotal s.db u t) 0)
         infoCache := updateCreditInfoCache s.infoCache u (-(expiredTotal s.db u t)) 0 }) := by
  have h' : 0 < ((s.db.expiry.filter (fun rec => expiresNow rec u t)).map
      (fun rec => rec.remaining_credits)).sum := h
  simp only [expireCredits]
  rw [if_pos h']
  rfl

theorem expireCredits_spec_neg (u : String) (t : Int) (s : ServiceState)
    (h : ¬ 0 < expiredTotal s.db u t) :
    expireCredits u t s =
      (expiredTotal s.db u t, { s with db := { s.db with expiry := expireMark s.db u t } }) := by
  have h' : ¬ 0 < ((s.db.expiry.filter (fun rec => expiresNow rec u t)).map
      (fun rec => rec.remaining_credits)).sum := h
  simp only [expireCredits]
  rw [if_neg h']
  rfl

/-! Preservation of the state invariant by each service operation. -/

theorem inv_addCredits (uid : String) (a : Int) (plan : Option String) (ea : Int)
    (s : ServiceState) (hinv : Inv s) : Inv (addCredits uid a plan ea s).2 := by
  obtain ⟨hF, hN, hC⟩ := hinv
  unfold addCredits
  split
  · exact ⟨hF, hN, hC⟩
  · cases plan with
    | none =>
        refine ⟨hF, hN, ?_⟩
        apply cacheOk_update s.db _ s.infoCache uid a 0 hC
        · intro v
          rw [get_user_credits_add_transaction]
          by_cases hv : v = uid
          · subst hv
            rw [if_pos (by simp), if_pos rfl]
          · rw [if_neg (by simp [Ne.symm hv]), if_neg hv]
            simp
        · intro v
          rw [reserved_sum_add_transaction]
          simp
    | some p =>
        refine ⟨hF, hN, ?_⟩
        apply cacheOk_update s.db _ s.infoCache uid a 0 hC
        · intro v
          rw [get_user_credits_add_expiry, get_user_credits_add_transaction]
          by_cases hv : v = uid
          · subst hv
            rw [if_pos (by simp), if_pos rfl]
          · rw [if_neg (by simp [Ne.symm hv]), if_neg hv]
            simp
        · intro v
          rw [reserved_sum_add_expiry, reserved_sum_add_transaction]
          simp

theorem inv_deductInternal (uid : String) (a cb : Int) (s : ServiceState)
    (hcb : cb = s.db.get_user_credits uid) (hinv : Inv s) :
    Inv (deductCreditsInternal uid a cb s).2 := by
  obtain ⟨hF, hN, hC⟩ := hinv
  unfold deductCreditsInternal
  refine ⟨hF, hN, ?_⟩
  apply cacheOk_update s.db _ s.infoCache uid (-a) 0 hC
  · intro v
    rw [get_user_credits_add_transaction]
    by_cases hv : v = uid
    · subst hv
      rw [if_pos (by simp), if_pos rfl, hcb]
      ring
    · rw [if_neg (by simp [Ne.symm hv]), if_neg hv]
      simp
  · intro v
    rw [reserved_sum_add_transaction]
    simp

theorem inv_deductCredits (uid : String) (a : Int) (s : ServiceState) (hinv : Inv s) :
    Inv (deductCredits uid a s).2 := by
  unfold deductCredits
  split
  · exact hinv
  · dsimp only
    split
    · exact hinv
    · exact inv_deductInternal uid a _ s rfl hinv

theorem inv_deductCreditsAfterService (uid : String) (a : Int) (s : ServiceState)
    (hinv : Inv s) : Inv (deductCreditsAfterService uid a s).2 := by
  unfold deductCreditsAfterService
  split
  · exact hinv
  · exact inv_deductInternal uid a _ s rfl hinv

theorem reserveCredits_spec (uid : String) (a : Int) (s : ServiceState)
    (h1 : ¬ a ≤ 0) (h2 : ¬ (s.db.get_user_credits_info uid).available < a) :
    reserveCredits uid a s =
      (.ok { id := s.db.nextReservationId, user_id := uid, credits := a,
             committed := false, released := false },
       { db := { s.db.add_reserved_credits
                   { id := s.db.nextReservationId, user_id := uid, credits := a,
                     committed := false, released := false } with
                 nextReservationId :=
                   (s.db.add_reserved_credits
                     { id := s.db.nextReservationId, user_id := uid, credits := a,
                       committed := false, released := false }).nextReservationId + 1 }
         balanceCache := s.balanceCache
         infoCache := updateCreditInfoCache s.infoCache uid 0 a }) := by
  simp only [reserveCredits]
  rw [if_neg h1, if_neg h2]

theorem unreserveCredits_spec (r : ReservedCredits) (s : ServiceState) :
    unreserveCredits r s =
      (({ r with released := true } : ReservedCredits),
       ({ db := s.db.add_reserved_credits { r with released := true }
          balanceCache := s.balanceCache
          infoCache := updateCreditInfoCache s.infoCache r.user_id 0 (-r.credits) } :
        ServiceState)) := rfl

theorem inv_reserveCredits (uid : String) (a : Int) (s : ServiceState) (hinv : Inv s) :
    Inv (reserveCredits uid a s).2 := by
  obtain ⟨hF, hN, hC⟩ := hinv
  by_cases h1 : a ≤ 0
  · unfold reserveCredits
    rw [if_pos h1]
    exact ⟨hF, hN, hC⟩
  by_cases h2 : (s.db.get_user_credits_info uid).available < a
  · have hs : (reserveCredits uid a s).2 = s := by
      simp only [reserveCredits]
      rw [if_neg h1, if_pos h2]
    rw [hs]
    exact ⟨hF, hN, hC⟩
  have hfresh : ∀ x ∈ s.db.reserved, x.id ≠ s.db.nextReservationId := by
    intro x hx
    exact Nat.ne_of_lt (hF x hx)
  rw [reserveCredits_spec uid a s h1 h2, add_reserved_fresh_eq s.db _ hfresh]
  refine ⟨?_, ?_, ?_⟩
  · intro x hx
    rcases List.mem_append.mp hx with h | h
    · exact Nat.lt_succ_of_lt (hF x h)
    · rw [List.mem_singleton.mp h]
      exact Nat.lt_succ_self _
  · show ((s.db.reserved ++
      [({ id := s.db.nextReservationId, user_id := uid, credits := a,
          committed := false, released := false } : ReservedCredits)]).map
        (fun r => r.id)).Nodup
    rw [List.map_append, List.nodup_append]
    refine ⟨hN, List.nodup_singleton _, ?_⟩
    intro x hx hy
    rcases List.mem_map.mp hx with ⟨y, hymem, hyid⟩
    rw [List.mem_singleton.mp hy] at hyid
    exact absurd hyid (hfresh y hymem)
  · apply cacheOk_update s.db _ s.infoCache uid 0 a hC
    · intro v
      show s.db.get_user_credits v = s.db.get_user_credits v + (if v = uid then 0 else 0)
      simp
    · intro v
      show DBState.get_reserved_credits_for_user
          { s.db with reserved := s.db.reserved ++
              [({ id := s.db.nextReservationId, user_id := uid, credits := a,
                  committed := false, released := false } : ReservedCredits)] } v
        = s.db.get_reserved_credits_for_user v + (if v = uid then a else 0)
      rw [← add_reserved_fresh_eq s.db _ hfresh, reserved_sum_append s.db _ v hfresh]
      unfold activeCredit
      by_cases hv : v = uid
      · subst hv
        rw [if_pos (by simp), if_pos rfl]
      · rw [if_neg (by simp [Ne.symm hv]), if_neg hv]

theorem inv_unreserveCredits (r : ReservedCredits) (s : ServiceState)
    (hmem : r ∈ s.db.reserved) (hcom : r.committed = false) (hrel : r.released = false)
    (hinv : Inv s) : Inv (unreserveCredits r s).2 := by
  obtain ⟨hF, hN, hC⟩ := hinv
  have hrepl := inv_replace_reserved s.db r { r with released := true } hmem rfl hF hN
  rw [unreserveCredits_spec r s]
  refine ⟨hrepl.1, hrepl.2, ?_⟩
  apply cacheOk_update s.db (s.db.add_reserved_credits { r with released := true })
    s.infoCache r.user_id 0 (-r.credits) hC
  · intro v
    rw [get_user_credits_add_reserved]
    simp
  · intro v
    rw [reserved_sum_replace s.db r { r with released := true } v hmem rfl hN]
    unfold activeCredit
    by_cases hv : v = r.user_id
    · subst hv
      rw [if_pos (by simp [hcom, hrel]), if_pos rfl]
      simp
      ring
    · rw [if_neg (by simp [Ne.symm hv]), if_neg (by simp [Ne.symm hv]), if_neg hv]
      ring

theorem commitReservedCredits_spec (r : ReservedCredits) (s : ServiceState)
    (h : ¬ s.db.get_user_credits r.user_id < r.credits) :
    commitReservedCredits r s =
      (.ok { user_id := r.user_id, credits_added := 0, credits_deducted := r.credits,
             current_credits := s.db.get_user_credits r.user_id - r.credits,
             transaction_type := .commit_reserved },
       { db := (s.db.add_reserved_credits { r with committed := true }).add_transaction
           { user_id := r.user_id, credits_added := 0, credits_deducted := r.credits,
             current_credits := s.db.get_user_credits r.user_id - r.credits,
             transaction_type := .commit_reserved }
         balanceCache := setBalanceCache s.balanceCache r.user_id
           (s.db.get_user_credits r.user_id - r.credits)
         infoCache := updateCreditInfoCache s.infoCache r.user_id (-r.credits) (-r.credits) }) := by
  simp only [commitReservedCredits]
  rw [if_neg h]

theorem inv_commitReservedCredits (r : ReservedCredits) (s : ServiceState)
    (hmem : r ∈ s.db.reserved) (hcom : r.committed = false) (hrel : r.released = false)
    (hinv : Inv s) : Inv (commitReservedCredits r s).2 := by
  obtain ⟨hF, hN, hC⟩ := hinv
  by_cases h : s.db.get_user_credits r.user_id < r.credits
  · have hs : (commitReservedCredits r s).2 = s := by
      simp only [commitReservedCredits]
      rw [if_pos h]
    rw [hs]
    exact ⟨hF, hN, hC⟩
  have hrepl := inv_replace_reserved s.db r { r with committed := true } hmem rfl hF hN
  rw [commitReservedCredits_spec r s h]
  refine ⟨hrepl.1, hrepl.2, ?_⟩
  apply cacheOk_update s.db _ s.infoCache r.user_id (-r.credits) (-r.credits) hC
  · intro v
    rw [get_user_credits_add_transaction, get_user_credits_add_reserved]
    by_cases hv : v = r.user_id
    · subst hv
      rw [if_pos (by simp), if_pos rfl]
      ring
    · rw [if_neg (by simp [Ne.symm hv]), if_neg hv]
      simp
  · intro v
    rw [reserved_sum_add_transaction,
      reserved_sum_replace s.db r { r with committed := true } v hmem rfl hN]
    unfold activeCredit
    by_cases hv : v = r.user_id
    · subst hv
      rw [if_pos (by simp [hcom, hrel]), if_pos rfl]
      simp
      ring
    · rw [if_neg (by simp [Ne.symm hv]), if_neg (by simp [Ne.symm hv]), if_neg hv]
      ring

theorem inv_getUserCreditsInfo (uid : String) (s : ServiceState) (hinv : Inv s) :
    Inv (getUserCreditsInfo uid s).2 := by
  obtain ⟨hF, hN, hC⟩ := hinv
  unfold getUserCreditsInfo
  rcases hC uid with hmiss | hvalid
  · rw [hmiss]
    exact ⟨hF, hN, cacheOk_populate s.db s.infoCache uid hC⟩
  · rw [hvalid]
    exact ⟨hF, hN, hC⟩

theorem findReservation_mem {db : DBState} {rid : Nat} {r : ReservedCredits}
    (h : findReservation db rid = some r) : r ∈ db.reserved :=
  List.mem_of_find?_eq_some h

theorem runOpChecked_inv {s s1 : ServiceState} (op : Op) (hinv : Inv s)
    (h : runOpChecked s op = some s1) : Inv s1 := by
  cases op with
  | add uid a =>
      unfold runOpChecked runOp at h
      dsimp only at h
      rcases heq : addCredits uid a none 0 s with ⟨res, s2⟩
      rw [heq] at h
      cases res with
      | ok tx =>
          simp only [Option.some.injEq] at h
          subst h
          have hx := inv_addCredits uid a none 0 s hinv
          rw [heq] at hx
          exact hx
      | error e => simp at h
  | deduct uid a =>
      unfold runOpChecked runOp at h
      dsimp only at h
      rcases heq : deductCredits uid a s with ⟨res, s2⟩
      rw [heq] at h
      cases res with
      | ok tx =>
          simp only [Option.some.injEq] at h
          subst h
          have hx := inv_deductCredits uid a s hinv
          rw [heq] at hx
          exact hx
      | error e => simp at h
  | reserve uid a =>
      unfold runOpChecked runOp at h
      dsimp only at h
      rcases heq : reserveCredits uid a s with ⟨res, s2⟩
      rw [heq] at h
      cases res with
      | ok r =>
          simp only [Option.some.injEq] at h
          subst h
          have hx := inv_reserveCredits uid a s hinv
          rw [heq] at hx
          exact hx
      | error e => simp at h
  | commit rid =>
      unfold runOpChecked at h
      dsimp only at h
      rcases hfind : findReservation s.db rid with _ | r
      · rw [hfind] at h; simp at h
      · rw [hfind] at h
        dsimp only at h
        split at h
        · rename_i hact
          rcases heq : commitReservedCredits r s with ⟨res, s2⟩
          rw [heq] at h
          cases res with
          | ok tx =>
              simp only [Option.some.injEq] at h
              subst h
              have hx := inv_commitReservedCredits r s (findReservation_mem hfind)
                hact.1 hact.2 hinv
              rw [heq] at hx
              exact hx
          | error e => simp at h
        · simp at h
  | unreserve rid =>
      unfold runOpChecked at h
      dsimp only at h
      rcases hfind : findReservation s.db rid with _ | r
      · rw [hfind] at h; simp at h
      · rw [hfind] at h
        dsimp only at h
        split at h
        · rename_i hact
          simp only [Option.some.injEq] at h
          subst h
          exact inv_unreserveCredits r s (findReservation_mem hfind) hact.1 hact.2 hinv
        · simp at h
  | getInfo uid =>
      unfold runOpChecked runOp at h
      dsimp only at h
      simp only [Option.some.injEq] at h
      subst h
      exact inv_getUserCreditsInfo uid s hinv

theorem runOpsChecked_inv {s1 : ServiceState} (ops : List Op) {s : ServiceState}
    (hinv : Inv s) (h : runOpsChecked s ops = some s1) : Inv s1 := by
  induction ops generalizing s with
  | nil =>
      unfold runOpsChecked at h
      simp only [Option.some.injEq] at h
      subst h
      exact hinv
  | cons op rest ih =>
      unfold runOpsChecked at h
      rcases hop : runOpChecked s op with _ | s2
      · rw [hop] at h; simp at h
      · rw [hop] at h
        simp only [Option.some_bind] at h
        exact ih (runOpChecked_inv op hinv hop) h

theorem inv_initState : Inv initState := by
  refine ⟨?_, ?_, ?_⟩
  · intro r hr
    cases hr
  · exact List.nodup_nil
  · intro uid
    left
    rfl

theorem c1_invariant_aux {s : ServiceState} (hinv : Inv s) (uid : String) :
    (getUserCreditsInfo uid s).1.available
      = (getUserCreditsInfo uid s).1.balance - s.db.get_reserved_credits_for_user uid := by
  obtain ⟨-, -, hC⟩ := hinv
  unfold getUserCreditsInfo
  rcases hC uid with hmiss | hvalid
  · rw [hmiss]
    rfl
  · rw [hvalid]
    rfl


/-! Claim theorems. -/

/-- C1 (amended): for every user and every sequence of `add`, `deduct`,
`reserve`, `commit`, `unreserve` and `getCreditInfo` calls that each
individually succeed, *provided each `commit` and `unreserve` targets a
reservation still active at the time of the call*, after every call the
aggregate returned by `getCreditInfo(user)` satisfies
`available = balance - Σ(amount over that user's reservations with
committed = false and released = false)`.  (Every prefix of a successful
run is itself a successful run, so this covers the state after each call.)
Without the active-target proviso the claim fails: see the
counterexample. -/
theorem c1_available_consistent (ops : List Op) (s : ServiceState)
    (h : runOpsChecked initState ops = some s) (uid : String) :
    (getUserCreditsInfo uid s).1.available
      = (getUserCreditsInfo uid s).1.balance - s.db.get_reserved_credits_for_user uid :=
  c1_invariant_aux (runOpsChecked_inv ops inv_initState h) uid

/-- C1 witness: the invariant theorem applied to the concrete checked run
`add 100; getInfo; reserve 30; getInfo; commit; getInfo`. -/
theorem c1_available_consistent_witness :
    (getUserCreditsInfo "u" c1WitnessState).1.available
      = (getUserCreditsInfo "u" c1WitnessState).1.balance
        - c1WitnessState.db.get_reserved_credits_for_user "u" :=
  c1_available_consistent c1WitnessOps c1WitnessState rfl "u"

/-- C1 counterexample: the run `add 100; reserve 10; commit; unreserve`
(the aggregate queried after every call) consists of individually
succeeding `add`/`reserve`/`commit`/`unreserve` calls, yet afterwards
`getCreditInfo` returns `available = 100` while
`balance - Σ(active reservation amounts) = 90 - 0 = 90`: `unreserve` on the
already committed reservation applied its `-10` reserved cache delta a
second time. -/
theorem c1_counterexample :
    ((runOps initState c1CexOps).map (fun s =>
        ((getUserCreditsInfo "u" s).1.available,
         (getUserCreditsInfo "u" s).1.balance - s.db.get_reserved_credits_for_user "u")))
      = some (100, 90) ∧ (100 : Int) ≠ 90 :=
  ⟨by decide, by decide⟩

/-- C3 counterexample: after the individually succeeding run
`add 100; getInfo; reserve 10; commit; unreserve`, the stored reservation
has `committed = true` and `released = true` — both flags became true over
its lifetime — and the cached aggregate's reserved total has been driven to
`-10` (the `-10` delta was applied once by `commit` and a second time by
`unreserve`), refuting "at most one flag ever becomes true" and "`unreserve`
on a committed reservation is rejected or a no-op". -/
theorem c3_counterexample :
    ((runOps initState c3CexOps).map (fun s =>
        (findReservation s.db 0, s.infoCache "u", s.db.get_reserved_credits_for_user "u")))
      = some (some { id := 0, user_id := "u", credits := 10, committed := true, released := true },
              .valid { balance := 90, reserved := -10, available := 100 } (some 300), 0) :=
  by decide

/-- C3 (amended): `unreserve` on an already committed reservation is
neither rejected nor a no-op: it additionally sets `released = true` (so
both flags end true) and persists the record.  The store-level reserved
total is unchanged (the committed flag already excluded the amount), but
the `-amount` reserved delta is applied to the cached aggregate a second
time. -/
theorem c3_unreserve_after_commit (r : ReservedCredits) (s : ServiceState)
    (hmem : r ∈ s.db.reserved) (hcom : r.committed = true) (hnodup : NodupIds s.db) :
    (unreserveCredits r s).1.committed = true
    ∧ (unreserveCredits r s).1.released = true
    ∧ findReservation (unreserveCredits r s).2.db r.id = some { r with released := true }
    ∧ (unreserveCredits r s).2.db.get_reserved_credits_for_user r.user_id
        = s.db.get_reserved_credits_for_user r.user_id
    ∧ (∀ info ttl, s.infoCache r.user_id = .valid info ttl →
        (unreserveCredits r s).2.infoCache r.user_id
          = .valid { balance := info.balance
                     reserved := info.reserved - r.credits
                     available := info.balance - (info.reserved - r.credits) } (some 300)) := by
  refine ⟨by rw [unreserveCredits_spec]; exact hcom, by rw [unreserveCredits_spec], ?_, ?_, ?_⟩
  · rw [unreserveCredits_spec]
    exact findReservation_replace s.db r { r with released := true } hmem rfl
  · rw [unreserveCredits_spec]
    show (s.db.add_reserved_credits { r with released := true }).get_reserved_credits_for_user
        r.user_id = s.db.get_reserved_credits_for_user r.user_id
    rw [reserved_sum_replace s.db r { r with released := true } r.user_id hmem rfl hnodup]
    simp [activeCredit, hcom]
  · intro info ttl hc
    rw [unreserveCredits_spec]
    show updateCreditInfoCache s.infoCache r.user_id 0 (-r.credits) r.user_id = _
    unfold updateCreditInfoCache
    rw [hc]
    dsimp only
    rw [if_pos (by simp)]
    norm_num [sub_eq_add_neg]

/-- C3 witness: the amended statement evaluated on a store holding a
committed 10-credit reservation with balance 90 and a warm cache. -/
theorem c3_unreserve_after_commit_witness :
    (unreserveCredits c3WitnessRes c3WitnessState).1.committed = true
    ∧ (unreserveCredits c3WitnessRes c3WitnessState).1.released = true
    ∧ (unreserveCredits c3WitnessRes c3WitnessState).2.db.get_reserved_credits_for_user "u"
        = c3WitnessState.db.get_reserved_credits_for_user "u"
    ∧ (unreserveCredits c3WitnessRes c3WitnessState).2.infoCache "u"
        = .valid { balance := 90, reserved := -10, available := 100 } (some 300) := by
  have h := c3_unreserve_after_commit c3WitnessRes c3WitnessState
    (by decide) rfl (by unfold NodupIds; decide)
  refine ⟨h.1, h.2.1, h.2.2.2.1, ?_⟩
  have hc := h.2.2.2.2 { balance := 90, reserved := 0, available := 90 } (some 300) (by decide)
  simpa using hc

/-- C9 counterexample: from balance 0, after `add(100)`, `reserve(50)`,
the failing `reserve(55)`, `unreserve` of the 50-credit hold and a
succeeding `reserve(55)`, the subsequent `reserve(10)` SUCCEEDS (available
is 45 and 45 is not less than 10) — it does not raise `InsufficientCredits`
as the claim asserts. -/
theorem c9_counterexample :
    (reserveCredits "u" 10 c9s4).1
      = .ok { id := 2, user_id := "u", credits := 10, committed := false, released := false } :=
  by decide

/-- C9 (amended): starting from balance 0: `add(100)` succeeds;
`reserve(50)` succeeds; a following `reserve(55)` raises
`InsufficientCredits` and leaves the state unchanged; after `unreserve` of
the 50-credit reservation, `reserve(55)` succeeds; and a subsequent
`reserve(10)` also succeeds (available is 45 ≥ 10).  The source test
`test_no_overspend_when_reserving` expects this last call to fail, which
contradicts the engine's admission rule `available < amount`. -/
theorem c9_scenario :
    (addCredits "u" 100 none 0 initState).1
        = .ok { user_id := "u", credits_added := 100, credits_deducted := 0,
                current_credits := 100, transaction_type := .add }
    ∧ (reserveCredits "u" 50 c9s1).1 = .ok c9r1
    ∧ (reserveCredits "u" 55 c9s2).1 = .error .insufficientCredits
    ∧ (reserveCredits "u" 55 c9s2).2 = c9s2
    ∧ (reserveCredits "u" 55 c9s3).1
        = .ok { id := 1, user_id := "u", credits := 55, committed := false, released := false }
    ∧ (reserveCredits "u" 10 c9s4).1
        = .ok { id := 2, user_id := "u", credits := 10, committed := false, released := false } := by
  refine ⟨by decide, by decide, by decide, ?_, by decide, by decide⟩
  unfold reserveCredits
  rw [if_neg (by decide)]
  dsimp only
  rw [if_pos (by decide)]


/-- C2: if `reserve(user, a1)` succeeds (a1 positive and admitted against
`available`) and `reserve(user, a2)` is then called while `a2` exceeds the
now-current available credit, the second call fails with
`InsufficientCredits` and leaves the state unchanged, while the first
reservation remains stored in the active state (committed and released both
false), still counted in the reserved total; the balance was never
touched. -/
theorem c2_second_reserve_insufficient (s : ServiceState) (uid : String) (a1 a2 : Int)
    (hfresh : FreshIds s.db) (h1 : 0 < a1)
    (hok : a1 ≤ (s.db.get_user_credits_info uid).available)
    (h2 : (s.db.get_user_credits_info uid).available - a1 < a2) :
    (reserveCredits uid a1 s).1
        = .ok { id := s.db.nextReservationId, user_id := uid, credits := a1,
                committed := false, released := false }
    ∧ (reserveCredits uid a2 (reserveCredits uid a1 s).2).1 = .error .insufficientCredits
    ∧ (reserveCredits uid a2 (reserveCredits uid a1 s).2).2 = (reserveCredits uid a1 s).2
    ∧ findReservation (reserveCredits uid a1 s).2.db s.db.nextReservationId
        = some { id := s.db.nextReservationId, user_id := uid, credits := a1,
                 committed := false, released := false }
    ∧ (reserveCredits uid a1 s).2.db.get_reserved_credits_for_user uid
        = s.db.get_reserved_credits_for_user uid + a1
    ∧ (reserveCredits uid a1 s).2.db.get_user_credits uid = s.db.get_user_credits uid := by
  have h1' : ¬ a1 ≤ 0 := not_le.mpr h1
  have h2' : ¬ (s.db.get_user_credits_info uid).available < a1 := not_lt.mpr hok
  have hfr : ∀ x ∈ s.db.reserved, x.id ≠ s.db.nextReservationId :=
    fun x hx => Nat.ne_of_lt (hfresh x hx)
  have hbal : (reserveCredits uid a1 s).2.db.get_user_credits uid
      = s.db.get_user_credits uid := by
    rw [reserveCredits_spec uid a1 s h1' h2']
    dsimp only
    rw [get_user_credits_bumpId, get_user_credits_add_reserved]
  have hsum : (reserveCredits uid a1 s).2.db.get_reserved_credits_for_user uid
      = s.db.get_reserved_credits_for_user uid + a1 := by
    rw [reserveCredits_spec uid a1 s h1' h2']
    dsimp only
    rw [reserved_sum_bumpId, reserved_sum_append s.db _ uid hfr]
    simp [activeCredit]
  have havail : ((reserveCredits uid a1 s).2.db.get_user_credits_info uid).available
      = (s.db.get_user_credits_info uid).available - a1 := by
    show (reserveCredits uid a1 s).2.db.get_user_credits uid
        - (reserveCredits uid a1 s).2.db.get_reserved_credits_for_user uid = _
    rw [hbal, hsum]
    show s.db.get_user_credits uid - (s.db.get_reserved_credits_for_user uid + a1)
        = s.db.get_user_credits uid - s.db.get_reserved_credits_for_user uid - a1
    ring
  have ha2 : ¬ a2 ≤ 0 := by omega
  have hfail : reserveCredits uid a2 (reserveCredits uid a1 s).2
      = (.error .insufficientCredits, (reserveCredits uid a1 s).2) :=
    reserveCredits_fail uid a2 _ ha2 (by rw [havail]; omega)
  refine ⟨?_, by rw [hfail], by rw [hfail], ?_, hsum, hbal⟩
  · rw [reserveCredits_spec uid a1 s h1' h2']
  · rw [reserveCredits_spec uid a1 s h1' h2']
    dsimp only
    rw [findReservation_bumpId, add_reserved_fresh_eq s.db _ hfr]
    exact findReservation_append s.db _ hfr

/-- C2 witness: on a store holding balance 100 and no reservations,
`reserve(50)` succeeds and the following `reserve(60)` fails with
`InsufficientCredits`, with the first hold still counted. -/
theorem c2_second_reserve_insufficient_witness :
    (reserveCredits "u" 60 (reserveCredits "u" 50 c9s1).2).1 = .error .insufficientCredits
    ∧ (reserveCredits "u" 50 c9s1).2.db.get_reserved_credits_for_user "u"
        = c9s1.db.get_reserved_credits_for_user "u" + 50 := by
  have h := c2_second_reserve_insufficient c9s1 "u" 50 60
    (by unfold FreshIds; decide) (by decide) (by decide) (by decide)
  exact ⟨h.2.1, h.2.2.2.2.1⟩

/-- C4: for a stored active reservation `r` of amount `a` at raw balance
`b`: `commit(r)` fails with `InsufficientCredits` exactly when `b < a`
(the check is against the raw balance, not `available`), leaving the state
unchanged; on success it stores `r` with `committed = true`, appends a
COMMIT_RESERVED transaction whose balance snapshot is `b - a`, making the
balance `b - a`, decreases the reserved total by `a`, and applies the
`-a`/`-a` delta to a well-formed cached aggregate. -/
theorem c4_commit_reserved (r : ReservedCredits) (s : ServiceState)
    (hmem : r ∈ s.db.reserved) (hcom : r.committed = false) (hrel : r.released = false)
    (hnodup : NodupIds s.db) :
    ((commitReservedCredits r s).1 = .error .insufficientCredits
        ↔ s.db.get_user_credits r.user_id < r.credits)
    ∧ (s.db.get_user_credits r.user_id < r.credits → (commitReservedCredits r s).2 = s)
    ∧ (¬ s.db.get_user_credits r.user_id < r.credits →
        (commitReservedCredits r s).1
            = .ok { user_id := r.user_id, credits_added := 0, credits_deducted := r.credits,
                    current_credits := s.db.get_user_credits r.user_id - r.credits,
                    transaction_type := .commit_reserved }
        ∧ (commitReservedCredits r s).2.db.transactions
            = s.db.transactions ++
              [{ user_id := r.user_id, credits_added := 0, credits_deducted := r.credits,
                 current_credits := s.db.get_user_credits r.user_id - r.credits,
                 transaction_type := .commit_reserved }]
        ∧ findReservation (commitReservedCredits r s).2.db r.id
            = some { r with committed := true }
        ∧ (commitReservedCredits r s).2.db.get_user_credits r.user_id
            = s.db.get_user_credits r.user_id - r.credits
        ∧ (commitReservedCredits r s).2.db.get_reserved_credits_for_user r.user_id
            = s.db.get_reserved_credits_for_user r.user_id - r.credits
        ∧ (∀ info ttl, s.infoCache r.user_id = .valid info ttl →
            (commitReservedCredits r s).2.infoCache r.user_id
              = .valid { balance := info.balance - r.credits
                         reserved := info.reserved - r.credits
                         available := (info.balance - r.credits)
                           - (info.reserved - r.credits) } (some 300))) := by
  have herr : s.db.get_user_credits r.user_id < r.credits →
      commitReservedCredits r s = (.error .insufficientCredits, s) := by
    intro hb
    simp only [commitReservedCredits]
    rw [if_pos hb]
  refine ⟨⟨?_, fun hb => by rw [herr hb]⟩, fun hb => by rw [herr hb], ?_⟩
  · intro h
    by_contra hb
    rw [commitReservedCredits_spec r s hb] at h
    simp at h
  · intro hb
    rw [commitReservedCredits_spec r s hb]
    refine ⟨rfl, ?_, ?_, ?_, ?_, ?_⟩
    · show (s.db.add_reserved_credits { r with committed := true }).transactions ++ _
          = s.db.transactions ++ _
      rw [transactions_add_reserved]
    · show findReservation (s.db.add_reserved_credits { r with committed := true }) r.id
          = some { r with committed := true }
      exact findReservation_replace s.db r { r with committed := true } hmem rfl
    · rw [get_user_credits_add_transaction, get_user_credits_add_reserved]
      rw [if_pos (by simp)]
    · rw [reserved_sum_add_transaction,
        reserved_sum_replace s.db r { r with committed := true } r.user_id hmem rfl hnodup]
      simp [activeCredit, hcom, hrel]
    · intro info ttl hc
      show updateCreditInfoCache s.infoCache r.user_id (-r.credits) (-r.credits) r.user_id = _
      unfold updateCreditInfoCache
      rw [hc]
      dsimp only
      rw [if_pos (by simp)]
      norm_num [sub_eq_add_neg]

/-- C4 witness: committing an active 40-credit reservation at balance 100
succeeds, snapshots balance 60, zeroes the reserved total and moves the
cached aggregate from (100, 40, 60) to (60, 0, 60). -/
theorem c4_commit_reserved_witness :
    (commitReservedCredits c4WitnessRes c4WitnessState).1
        = .ok { user_id := "u", credits_added := 0, credits_deducted := 40,
                current_credits := 60, transaction_type := .commit_reserved }
    ∧ (commitReservedCredits c4WitnessRes c4WitnessState).2.db.get_user_credits "u" = 60
    ∧ (commitReservedCredits c4WitnessRes c4WitnessState).2.db.get_reserved_credits_for_user "u"
        = 0
    ∧ (commitReservedCredits c4WitnessRes c4WitnessState).2.infoCache "u"
        = .valid { balance := 60, reserved := 0, available := 60 } (some 300) := by
  have h := c4_commit_reserved c4WitnessRes c4WitnessState
    (by decide) rfl rfl (by unfold NodupIds; decide)
  have hs := h.2.2 (by decide)
  refine ⟨by simpa using hs.1, by simpa using hs.2.2.2.1, by simpa using hs.2.2.2.2.1, ?_⟩
  have hc := hs.2.2.2.2.2 { balance := 100, reserved := 40, available := 60 } (some 300)
    (by decide)
  simpa using hc


/-- C5: `deductAfterService(user, amount)` with a positive amount always
succeeds, decreasing the balance by the amount even past zero, and is the
only operation that can take a nonnegative balance negative (`add`,
admission-checked `deduct` over nonnegative reservations, `reserve`,
`unreserve`, `commit`, `expire` and `getCreditInfo` all preserve
nonnegativity); an admission-checked `deduct` on an account whose available
credit is negative fails with `InsufficientCredits` for every positive
amount; and concretely, after `add(50)`: `deduct(60)` fails,
`deductAfterService(60)` yields balance `-10`, and `deductAfterService(20)`
yields balance `-30`. -/
theorem c5_deduct_after_service (s : ServiceState) (u : String) (a t : Int)
    (r : ReservedCredits) (ha : 0 < a) :
    (deductCreditsAfterService u a s).1 = .ok (deductTx u a (s.db.get_user_credits u))
    ∧ (deductCreditsAfterService u a s).2.db.get_user_credits u
        = s.db.get_user_credits u - a
    ∧ ((s.db.get_user_credits_info u).available < 0 →
        deductCredits u a s = (.error .insufficientCredits, s))
    ∧ (deductCredits "u" 60 c5s1).1 = .error .insufficientCredits
    ∧ c5s2.db.get_user_credits "u" = -10
    ∧ (deductCreditsAfterService "u" 20 c5s2).2.db.get_user_credits "u" = -30
    ∧ (0 ≤ s.db.get_user_credits u → 0 ≤ (addCredits u a none t s).2.db.get_user_credits u)
    ∧ (NonnegReservations s.db → 0 ≤ s.db.get_user_credits u →
        0 ≤ (deductCredits u a s).2.db.get_user_credits u)
    ∧ (reserveCredits u a s).2.db.get_user_credits u = s.db.get_user_credits u
    ∧ (unreserveCredits r s).2.db.get_user_credits u = s.db.get_user_credits u
    ∧ (0 ≤ s.db.get_user_credits r.user_id →
        0 ≤ (commitReservedCredits r s).2.db.get_user_credits r.user_id)
    ∧ (0 ≤ s.db.get_user_credits u → 0 ≤ (expireCredits u t s).2.db.get_user_credits u)
    ∧ (getUserCreditsInfo u s).2.db.get_user_credits u = s.db.get_user_credits u := by
  have h0 : ¬ a ≤ 0 := not_le.mpr ha
  refine ⟨?_, ?_, ?_, by decide, by decide, by decide, ?_, ?_, ?_, ?_, ?_, ?_, ?_⟩
  · rw [deductCreditsAfterService_spec u a s h0]
    rfl
  · rw [deductCreditsAfterService_spec u a s h0]
    dsimp only
    rw [get_user_credits_add_transaction, if_pos (by simp)]
  · intro hneg
    exact deductCredits_fail u a s h0 (lt_trans hneg ha)
  · intro hb
    unfold addCredits
    rw [if_neg h0]
    dsimp only
    rw [get_user_credits_add_transaction, if_pos (by simp)]
    dsimp only
    omega
  · intro hnn hb
    by_cases h2 : (s.db.get_user_credits_info u).available < a
    · rw [deductCredits_fail u a s h0 h2]
      exact hb
    · rw [deductCredits_spec u a s h0 h2]
      dsimp only
      rw [get_user_credits_add_transaction, if_pos (by simp)]
      dsimp only
      have hsumnn := reserved_sum_nonneg s.db u hnn
      have h2' : a ≤ s.db.get_user_credits u - s.db.get_reserved_credits_for_user u := by
        have hx := not_lt.mp h2
        simpa [DBState.get_user_credits_info] using hx
      omega
  · by_cases h2 : (s.db.get_user_credits_info u).available < a
    · rw [reserveCredits_fail u a s h0 h2]
    · rw [reserveCredits_spec u a s h0 h2]
      dsimp only
      rw [get_user_credits_bumpId, get_user_credits_add_reserved]
  · rw [unreserveCredits_spec]
    dsimp only
    rw [get_user_credits_add_reserved]
  · intro hb
    by_cases hlt : s.db.get_user_credits r.user_id < r.credits
    · rw [commitReservedCredits_fail r s hlt]
      exact hb
    · rw [commitReservedCredits_spec r s hlt]
      dsimp only
      rw [get_user_credits_add_transaction, if_pos (by simp)]
      dsimp only
      omega
  · intro hb
    by_cases hpos : 0 < expiredTotal s.db u t
    · rw [expireCredits_spec_pos u t s hpos]
      dsimp only
      rw [get_user_credits_add_transaction, if_pos (by simp)]
      dsimp only
      exact le_max_right _ 0
    · rw [expireCredits_spec_neg u t s hpos]
      exact hb
  · unfold getUserCreditsInfo
    rcases hcc : s.infoCache u with _ | _ | ⟨i, ttl⟩ <;> rfl

/-- C5 witness: the theorem instantiated at balance 50, amount 3 and the
concrete `add 50` scenario states. -/
theorem c5_deduct_after_service_witness :
    (deductCreditsAfterService "u" 3 c5s1).1
        = .ok { user_id := "u", credits_added := 0, credits_deducted := 3,
                current_credits := 47, transaction_type := .deduct }
    ∧ (deductCreditsAfterService "u" 3 c5s1).2.db.get_user_credits "u" = 47
    ∧ (deductCredits "u" 60 c5s1).1 = .error .insufficientCredits
    ∧ c5s2.db.get_user_credits "u" = -10
    ∧ (deductCreditsAfterService "u" 20 c5s2).2.db.get_user_credits "u" = -30
    ∧ 0 ≤ (deductCredits "u" 3 c5s1).2.db.get_user_credits "u" := by
  have h := c5_deduct_after_service c5s1 "u" 3 0 mwRes (by decide)
  refine ⟨h.1, h.2.1, h.2.2.2.1, h.2.2.2.2.1, h.2.2.2.2.2.1, ?_⟩
  exact h.2.2.2.2.2.2.2.1 (by unfold NonnegReservations; decide) (by decide)

/-- C6: `expire(user, as_of)` returns the sum of the prior
`remaining_credits` over exactly the not-yet-expired records of the user
with `expires_at ≤ as_of`; it zeroes and marks expired exactly those
records; when the total is positive the resulting balance is
`max(balance - total, 0)` (never negative) and an EXPIRE transaction with
that snapshot is appended; when the total is not positive the balance and
the transaction log are untouched. -/
theorem c6_expire_credits (s : ServiceState) (u : String) (t : Int) :
    (expireCredits u t s).1 = expiredTotal s.db u t
    ∧ (expireCredits u t s).2.db.expiry = expireMark s.db u t
    ∧ (expireCredits u t s).2.db.get_user_credits u
        = (if 0 < expiredTotal s.db u t
           then max (s.db.get_user_credits u - expiredTotal s.db u t) 0
           else s.db.get_user_credits u)
    ∧ (expireCredits u t s).2.db.transactions
        = (if 0 < expiredTotal s.db u t
           then s.db.transactions ++
             [{ user_id := u, credits_added := 0,
                credits_deducted := expiredTotal s.db u t,
                current_credits := max (s.db.get_user_credits u - expiredTotal s.db u t) 0,
                transaction_type := .expire }]
           else s.db.transactions)
    ∧ (0 < expiredTotal s.db u t → 0 ≤ (expireCredits u t s).2.db.get_user_credits u) := by
  by_cases h : 0 < expiredTotal s.db u t
  · rw [expireCredits_spec_pos u t s h]
    refine ⟨rfl, rfl, ?_, ?_, ?_⟩
    · dsimp only
      rw [get_user_credits_add_transaction, if_pos (by simp), if_pos h]
    · dsimp only
      rw [if_pos h]
      rfl
    · intro _
      dsimp only
      rw [get_user_credits_add_transaction, if_pos (by simp)]
      exact le_max_right _ 0
  · rw [expireCredits_spec_neg u t s h]
    exact ⟨rfl, rfl, by rw [if_neg h]; rfl, by rw [if_neg h], fun hc => absurd hc h⟩

/-- C6 witness: on a store with balance 100, a 40-credit grant due at time
5 and a 20-credit grant due at time 50, `expire(u, 10)` collects 40,
leaves balance 60, marks only the due grant, and appends the EXPIRE
transaction. -/
theorem c6_expire_credits_witness :
    (expireCredits "u" 10 c6WitnessState).1 = 40
    ∧ (expireCredits "u" 10 c6WitnessState).2.db.get_user_credits "u" = 60
    ∧ (expireCredits "u" 10 c6WitnessState).2.db.expiry
        = [{ user_id := "u", credits := 40, remaining_credits := 0,
             expires_at := 5, expired := true }, c6GrantFuture] := by
  have h := c6_expire_credits c6WitnessState "u" 10
  refine ⟨by simpa using h.1, by simpa using h.2.2.1, by simpa [expireMark] using h.2.1⟩

/-- C7: `getCreditInfo(user)` returns the cached aggregate when present and
well-formed, leaving the state untouched; on a miss or a corrupted payload
no error reaches the caller (the function is total): the aggregate is
recomputed from the store (balance together with the active-reservation
sum) and the user's slot is repopulated as a well-formed entry with a 300 s
TTL, other slots and the store itself unchanged. -/
theorem c7_get_credit_info (s : ServiceState) (u : String) :
    (∀ info ttl, s.infoCache u = .valid info ttl → getUserCreditsInfo u s = (info, s))
    ∧ (s.infoCache u = .missing →
        (getUserCreditsInfo u s).1 = s.db.get_user_credits_info u
        ∧ (getUserCreditsInfo u s).2.db = s.db
        ∧ (getUserCreditsInfo u s).2.infoCache u
            = .valid (s.db.get_user_credits_info u) (some 300)
        ∧ (∀ v, v ≠ u → (getUserCreditsInfo u s).2.infoCache v = s.infoCache v))
    ∧ (s.infoCache u = .corrupted →
        (getUserCreditsInfo u s).1 = s.db.get_user_credits_info u
        ∧ (getUserCreditsInfo u s).2.db = s.db
        ∧ (getUserCreditsInfo u s).2.infoCache u
            = .valid (s.db.get_user_credits_info u) (some 300)
        ∧ (∀ v, v ≠ u → (getUserCreditsInfo u s).2.infoCache v = s.infoCache v)) := by
  refine ⟨?_, ?_, ?_⟩
  · intro info ttl hc
    unfold getUserCreditsInfo
    rw [hc]
  · intro hc
    unfold getUserCreditsInfo
    rw [hc]
    refine ⟨rfl, rfl, by dsimp only; rw [if_pos (by simp)], ?_⟩
    intro v hv
    dsimp only
    rw [if_neg (by simp [hv])]
  · intro hc
    unfold getUserCreditsInfo
    rw [hc]
    refine ⟨rfl, rfl, by dsimp only; rw [if_pos (by simp)], ?_⟩
    intro v hv
    dsimp only
    rw [if_neg (by simp [hv]), if_neg (by simp [hv])]

/-- C7 witness: a corrupted slot is self-healed (recompute from the store
and repopulate with a 300 s TTL), a hit is returned as is, and a miss on an
empty store yields the zero aggregate. -/
theorem c7_get_credit_info_witness :
    (getUserCreditsInfo "u" c7WitnessState).1
        = { balance := 7, reserved := 0, available := 7 }
    ∧ (getUserCreditsInfo "u" c7WitnessState).2.infoCache "u"
        = .valid { balance := 7, reserved := 0, available := 7 } (some 300)
    ∧ getUserCreditsInfo "u" c4WitnessState
        = ({ balance := 100, reserved := 40, available := 60 }, c4WitnessState)
    ∧ (getUserCreditsInfo "z" initState).1
        = { balance := 0, reserved := 0, available := 0 } := by
  have hcor := (c7_get_credit_info c7WitnessState "u").2.2 rfl
  have hmiss := (c7_get_credit_info initState "z").2.1 rfl
  have hhit := (c7_get_credit_info c4WitnessState "u").1
    { balance := 100, reserved := 40, available := 60 } (some 300) (by decide)
  exact ⟨by simpa using hcor.1, by simpa using hcor.2.2.1, hhit, by simpa using hmiss.1⟩

/-- C8 counterexample: with balance 50, an active 50-credit hold and an
actual-usage figure of 60, the adapter releases the hold and then calls the
legacy admission-checked `deduct_credits`, which raises and is swallowed:
nothing is deducted and the balance stays 50 — not the claimed
`deductAfterService` outcome of deducting 60 to balance -10. -/
theorem c8_counterexample :
    (middlewareReconcile "u" mwRes (some 60) mwState).1 = 0
    ∧ (middlewareReconcile "u" mwRes (some 60) mwState).2.db.get_user_credits "u" = 50
    ∧ ¬((middlewareReconcile "u" mwRes (some 60) mwState).1 = 60
        ∧ (middlewareReconcile "u" mwRes (some 60) mwState).2.db.get_user_credits "u" = -10) := by
  exact ⟨by decide, by decide, by decide⟩

/-- C8 (amended): on success of the wrapped operation, when the response
carries a positive actual-usage figure the adapter releases the original
reservation and charges the actual amount through the legacy
admission-checked `deduct` — so the exact actual cost is deducted only when
the raw balance covers it; if it does not, the `ValueError` is swallowed,
nothing is deducted and the balance is unchanged (the reservation is
released again).  When the figure is absent the adapter only releases the
reservation and deducts nothing. -/
theorem c8_reconcile_behavior (u : String) (r : ReservedCredits)
    (s : ServiceState) (a : Int) :
    (0 < a → ¬ s.db.get_user_credits u < a →
        (middlewareReconcile u r (some a) s).1 = a
        ∧ (middlewareReconcile u r (some a) s).2.db.get_user_credits u
            = s.db.get_user_credits u - a)
    ∧ (0 < a → s.db.get_user_credits u < a →
        (middlewareReconcile u r (some a) s).1 = 0
        ∧ (middlewareReconcile u r (some a) s).2.db.get_user_credits u
            = s.db.get_user_credits u)
    ∧ ((middlewareReconcile u r none s).1 = 0
        ∧ (middlewareReconcile u r none s).2.db.get_user_credits u
            = s.db.get_user_credits u
        ∧ (middlewareReconcile u r none s).2.db
            = s.db.add_reserved_credits { r with released := true }) := by
  have hbal1 : (legacyUnreserveCredits r s).2.db.get_user_credits u
      = s.db.get_user_credits u :=
    get_user_credits_congr (transactions_add_reserved s.db _) u
  refine ⟨?_, ?_, rfl, ?_, rfl⟩
  · intro ha hb
    have hmw : middlewareReconcile u r (some a) s
        = (a, (legacyDeductCredits u a (legacyUnreserveCredits r s).2).2) := by
      unfold middlewareReconcile
      dsimp only
      rw [if_pos ha,
        legacyDeductCredits_spec_ok u a _ (not_le.mpr ha) (by rw [hbal1]; exact hb)]
    refine ⟨by rw [hmw], ?_⟩
    rw [hmw, legacyDeductCredits_spec_ok u a _ (not_le.mpr ha) (by rw [hbal1]; exact hb)]
    dsimp only
    rw [get_user_credits_add_transaction, if_pos (by simp [deductTx])]
    simp [deductTx, hbal1]
  · intro ha hb
    have hmw : middlewareReconcile u r (some a) s
        = (0, (legacyUnreserveCredits { r with released := true }
            (legacyUnreserveCredits r s).2).2) := by
      unfold middlewareReconcile
      dsimp only
      rw [if_pos ha,
        legacyDeductCredits_spec_err u a _ (not_le.mpr ha) (by rw [hbal1]; exact hb)]
      rfl
    refine ⟨by rw [hmw], ?_⟩
    rw [hmw]
    exact get_user_credits_congr
      ((transactions_add_reserved _ _).trans (transactions_add_reserved _ _)) u
  · exact get_user_credits_congr (transactions_add_reserved s.db _) u

/-- C8 witness: the amended behavior on balance 50: actual usage 30 is
charged exactly (balance 20); an absent usage figure deducts nothing. -/
theorem c8_reconcile_behavior_witness :
    (middlewareReconcile "u" mwRes (some 30) mwState).1 = 30
    ∧ (middlewareReconcile "u" mwRes (some 30) mwState).2.db.get_user_credits "u" = 20
    ∧ (middlewareReconcile "u" mwRes none mwState).1 = 0 := by
  have h := c8_reconcile_behavior "u" mwRes mwState 30
  have hok := h.1 (by decide) (by decide)
  exact ⟨hok.1, by simpa using hok.2, h.2.2.1⟩

/-- C10: for a user with no stored transactions, reservations or expiry
records (and no cached aggregate), balance reads return 0 rather than
failing; the admission-checked `deduct` and `reserve` fail with
`InsufficientCredits` for every positive amount, leaving the state
unchanged; and no engine operation fails with a not-found error for the
unknown user: `add`, `deductAfterService` and `expire` all succeed. -/
theorem c10_unknown_user (s : ServiceState) (u : String) (a t : Int)
    (hu : UnknownUser s.db u) (hc : s.infoCache u = .missing) (ha : 0 < a) :
    s.db.get_user_credits u = 0
    ∧ s.db.get_user_credits_info u = { balance := 0, reserved := 0, available := 0 }
    ∧ (getUserCreditsInfo u s).1 = { balance := 0, reserved := 0, available := 0 }
    ∧ deductCredits u a s = (.error .insufficientCredits, s)
    ∧ reserveCredits u a s = (.error .insufficientCredits, s)
    ∧ (addCredits u a none t s).1
        = .ok { user_id := u, credits_added := a, credits_deducted := 0,
                current_credits := a, transaction_type := .add }
    ∧ (deductCreditsAfterService u a s).1 = .ok (deductTx u a 0)
    ∧ (expireCredits u t s).1 = 0 := by
  obtain ⟨hut, hur, hue⟩ := hu
  have h0 : ¬ a ≤ 0 := not_le.mpr ha
  have hbal : s.db.get_user_credits u = 0 := by
    unfold DBState.get_user_credits
    have hnone : s.db.transactions.reverse.find? (fun tx => tx.user_id == u) = none := by
      rw [List.find?_eq_none]
      intro x hx
      simp only [beq_iff_eq]
      exact hut x (List.mem_reverse.mp hx)
    rw [hnone]
  have hsum : s.db.get_reserved_credits_for_user u = 0 := by
    unfold DBState.get_reserved_credits_for_user
    have hnil : s.db.reserved.filter
        (fun r => r.user_id == u && !r.committed && !r.released) = [] := by
      rw [List.filter_eq_nil_iff]
      intro x hx
      simp [hur x hx]
    rw [hnil]
    rfl
  have hinfo : s.db.get_user_credits_info u
      = { balance := 0, reserved := 0, available := 0 } := by
    unfold DBState.get_user_credits_info
    rw [hbal, hsum]
    rfl
  have havail : (s.db.get_user_credits_info u).available < a := by
    rw [hinfo]
    exact ha
  have htot : expiredTotal s.db u t = 0 := by
    unfold expiredTotal
    have hnil : s.db.expiry.filter (fun rec => expiresNow rec u t) = [] := by
      rw [List.filter_eq_nil_iff]
      intro x hx
      simp [expiresNow, hue x hx]
    rw [hnil]
    rfl
  refine ⟨hbal, hinfo, ?_, deductCredits_fail u a s h0 havail,
    reserveCredits_fail u a s h0 havail, ?_, ?_, ?_⟩
  · unfold getUserCreditsInfo
    rw [hc]
    exact hinfo
  · unfold addCredits
    rw [if_neg h0]
    dsimp only
    rw [hbal]
    norm_num
  · rw [deductCreditsAfterService_spec u a s h0, hbal]
    rfl
  · rw [expireCredits_spec_neg u t s (by rw [htot]; simp)]
    exact htot

/-- C10 witness: on the empty system, balance reads return 0 and
`deduct(1)`/`reserve(1)` fail with `InsufficientCredits` while `add(1)`
succeeds. -/
theorem c10_unknown_user_witness :
    initState.db.get_user_credits "u" = 0
    ∧ (getUserCreditsInfo "u" initState).1 = { balance := 0, reserved := 0, available := 0 }
    ∧ deductCredits "u" 1 initState = (.error .insufficientCredits, initState)
    ∧ reserveCredits "u" 1 initState = (.error .insufficientCredits, initState)
    ∧ (addCredits "u" 1 none 0 initState).1
        = .ok { user_id := "u", credits_added := 1, credits_deducted := 0,
                current_credits := 1, transaction_type := .add } := by
  have h := c10_unknown_user initState "u" 1 0
    (by refine ⟨?_, ?_, ?_⟩ <;> intro x hx <;> cases hx) rfl (by decide)
  exact ⟨h.1, h.2.2.1, h.2.2.2.1, h.2.2.2.2.1, h.2.2.2.2.2.1⟩

end CreditManagement
